import Mathlib

/-!
Geometry utilities and CPU/GL vertex buffer

A shallow embedding of

* `freestyle/geometry/GeomUtils.h`: `distPointSegment`, `Bary2Point`, `segmentParam`
  (and `ComputeBarycentricCoords`, which the header only declares);
* `tess_RifFilter/opensubdiv/osd/cpuGLVertexBuffer.cpp`: `OsdCpuGLVertexBuffer`.

The scalar type `real` is read as an ordered field `K` (exact arithmetic, `ℝ` in the
theorems that need a square root).  A division is defined only for a non-zero divisor:
`realDiv` returns `none` where the divisor is zero, so every function that divides
returns an `Option`.  The same functions are also given on machine numbers (`F64`,
IEEE 754 binary64, round to nearest), where every operation has a result.  In the vertex
buffer the `int size` of `BindVBO` and `allocate` and the count of `new real[n]` are
32-bit integers that wrap around.
-/

namespace GeomUtils

/-! ## Points and vectors (`Geom.h`) -/

/-- Modelled from the spec: `Vec2r` of `Geom.h`, which is not among the sources; a
"fixed-size real-valued tuple" with two coordinates `x()`, `y()`. -/
structure Vec2 (K : Type) where
  x : K
  y : K
deriving DecidableEq

/-- Modelled from the spec: `Vec3r` of `Geom.h`, which is not among the sources; a
"fixed-size real-valued tuple" with three coordinates `x()`, `y()`, `z()`. -/
structure Vec3 (K : Type) where
  x : K
  y : K
  z : K
deriving DecidableEq

/-- Modelled from the spec: the capability set of a point type `T` of `Geom.h` over the
scalars `K`, "addition, subtraction, scalar multiplication, dot product" (the Euclidean
norm is `norm` below).  It is what the template parameter `class T` of
`distPointSegment` has to provide. -/
class PointAlgebra (K : outParam Type) (T : Type) where
  /-- Subtraction `U - V`. -/
  sub : T → T → T
  /-- Addition `U + V`. -/
  add : T → T → T
  /-- Scalar multiplication `k * V`. -/
  smul : K → T → T
  /-- Dot product `U * V`. -/
  dot : T → T → K

section VecOps
variable {K : Type} [LinearOrderedField K]

/-- Modelled from the spec: `Vec2r::operator-` (subtraction), coordinate by coordinate. -/
def Vec2.sub (U V : Vec2 K) : Vec2 K := ⟨U.x - V.x, U.y - V.y⟩

/-- Modelled from the spec: `Vec2r::operator+` (addition), coordinate by coordinate. -/
def Vec2.add (U V : Vec2 K) : Vec2 K := ⟨U.x + V.x, U.y + V.y⟩

/-- Modelled from the spec: `real * Vec2r` (scalar multiplication). -/
def Vec2.smul (k : K) (V : Vec2 K) : Vec2 K := ⟨k * V.x, k * V.y⟩

/-- Modelled from the spec: `Vec2r * Vec2r` (dot product). -/
def Vec2.dot (U V : Vec2 K) : K := U.x * V.x + U.y * V.y

/-- Modelled from the spec: `Vec3r::operator-` (subtraction), coordinate by coordinate. -/
def Vec3.sub (U V : Vec3 K) : Vec3 K := ⟨U.x - V.x, U.y - V.y, U.z - V.z⟩

/-- Modelled from the spec: `Vec3r::operator+` (addition), coordinate by coordinate. -/
def Vec3.add (U V : Vec3 K) : Vec3 K := ⟨U.x + V.x, U.y + V.y, U.z + V.z⟩

/-- Modelled from the spec: `real * Vec3r` (scalar multiplication, scalar on the left). -/
def Vec3.smul (k : K) (V : Vec3 K) : Vec3 K := ⟨k * V.x, k * V.y, k * V.z⟩

/-- Modelled from the spec: `Vec3r * real` (scalar multiplication, scalar on the right). -/
def Vec3.muls (V : Vec3 K) (k : K) : Vec3 K := ⟨V.x * k, V.y * k, V.z * k⟩

/-- Modelled from the spec: `Vec3r * Vec3r` (dot product). -/
def Vec3.dot (U V : Vec3 K) : K := U.x * V.x + U.y * V.y + U.z * V.z

/-- Modelled from the spec: `Vec3r ^ Vec3r` (cross product), used by the model of
`ComputeBarycentricCoords` only. -/
def Vec3.cross (U V : Vec3 K) : Vec3 K :=
  ⟨U.y * V.z - U.z * V.y, U.z * V.x - U.x * V.z, U.x * V.y - U.y * V.x⟩

instance instPointAlgebraVec2 : PointAlgebra K (Vec2 K) where
  sub := Vec2.sub
  add := Vec2.add
  smul := Vec2.smul
  dot := Vec2.dot

instance instPointAlgebraVec3 : PointAlgebra K (Vec3 K) where
  sub := Vec3.sub
  add := Vec3.add
  smul := Vec3.smul
  dot := Vec3.dot

/-- Modelled from the spec: `V.norm()`, the Euclidean norm of a vector, the square root
of its dot product with itself.  The square root of the scalars is the parameter
`sqrt` (`Real.sqrt` over `ℝ`). -/
def norm {T : Type} [PointAlgebra K T] (sqrt : K → K) (V : T) : K :=
  sqrt (PointAlgebra.dot V V)

/-- The division `a / b` of `real`: defined only for a non-zero divisor. -/
def realDiv (a b : K) : Option K :=
  if b = 0 then none else some (a / b)

/-- The point `(x, y, 0)` of space that a point `(x, y)` of the plane stands for. -/
def Vec2.embed (V : Vec2 K) : Vec3 K := ⟨V.x, V.y, 0⟩

/-! ## `GeomUtils.h` -/

/-- The template `distPointSegment` (GeomUtils.h, lines 48-69): the distance from a
point `P` to a segment `AB`. -/
def distPointSegment {T : Type} [PointAlgebra K T] (sqrt : K → K) (P A B : T) :
    Option K :=
  let AB := PointAlgebra.sub B A
  let AP := PointAlgebra.sub P A
  let BP := PointAlgebra.sub P B
  let c1 := PointAlgebra.dot AB AP
  if c1 ≤ 0 then
    some (norm sqrt AP)
  else
    let c2 := PointAlgebra.dot AB AB
    if c2 ≤ c1 then
      some (norm sqrt BP)
    else
      (realDiv c1 c2).map fun b =>
        let Pb := PointAlgebra.add A (PointAlgebra.smul b AB)
        let PPb := PointAlgebra.sub P Pb
        norm sqrt PPb

/-- The division of `distPointSegment` (GeomUtils.h, line 63): the dividend `c1` and the
divisor `c2` of `c1 / c2` for a call that reaches the division, `none` for a call that
returns before it (lines 56-57 and 60-61). -/
def distPointSegmentDivision {T : Type} [PointAlgebra K T] (P A B : T) : Option (K × K) :=
  let AB := PointAlgebra.sub B A
  let AP := PointAlgebra.sub P A
  let c1 := PointAlgebra.dot AB AP
  if c1 ≤ 0 then
    none
  else
    let c2 := PointAlgebra.dot AB AB
    if c2 ≤ c1 then
      none
    else
      some (c1, c2)

/-- The function `Bary2Point` (GeomUtils.h, lines 323-325):
`A*P.x() + B*P.y() + C*P.z()`. -/
def Bary2Point (A B C P : Vec3 K) : Vec3 K :=
  Vec3.add (Vec3.add (Vec3.muls A P.x) (Vec3.muls B P.y)) (Vec3.muls C P.z)

/-- The overload `segmentParam(Vec2r, Vec2r, Vec2r)` (GeomUtils.h, lines 329-334). -/
def segmentParam2 (A B P : Vec2 K) : Option K :=
  let PA := Vec2.sub P A
  let BA := Vec2.sub B A
  realDiv (Vec2.dot PA BA) (Vec2.dot BA BA)

/-- The overload `segmentParam(Vec3r, Vec3r, Vec3r)` (GeomUtils.h, lines 338-343). -/
def segmentParam3 (A B P : Vec3 K) : Option K :=
  let PA := Vec3.sub P A
  let BA := Vec3.sub B A
  realDiv (Vec3.dot PA BA) (Vec3.dot BA BA)

/-- Modelled from the spec: `ComputeBarycentricCoords`, which GeomUtils.h (line 321)
only declares; its body is not among the sources.  The spec has the barycentric
coordinates of `P` relative to `A`, `B`, `C` computed "via area ratios using cross
products in the triangle's plane", with weights that "sum to 1 by construction": each
weight is the signed area of the sub-triangle opposite to a vertex, measured along the
normal `N = (B - A) ^ (C - A)` of the triangle, over the signed area of the triangle. -/
def ComputeBarycentricCoords (A B C P : Vec3 K) : Option (Vec3 K) :=
  let N := Vec3.cross (Vec3.sub B A) (Vec3.sub C A)
  let d := Vec3.dot N N
  (realDiv (Vec3.dot (Vec3.cross (Vec3.sub B P) (Vec3.sub C P)) N) d).bind fun a =>
  (realDiv (Vec3.dot (Vec3.cross (Vec3.sub C P) (Vec3.sub A P)) N) d).bind fun b =>
  (realDiv (Vec3.dot (Vec3.cross (Vec3.sub A P) (Vec3.sub B P)) N) d).map fun c =>
    (⟨a, b, c⟩ : Vec3 K)

end VecOps

/-! ## Machine arithmetic: `real` as an IEEE 754 binary64 number -/

/-- Modelled from the spec: the scalar type `real` of `Geom.h` as the machine has it, a
"standard double" floating-point number.  A finite number is `(-1)^neg * k * 2^-1074`,
a multiple `k` of the least positive number; zeros are signed. -/
inductive F64 where
  | finite (neg : Bool) (k : Nat)
  | inf (neg : Bool)
  | nan
deriving DecidableEq

namespace F64

/-- The number `1`, in multiples of `2^-1074`. -/
def one : Nat := 1 <<< 1074

/-- The largest finite number `(2^53 - 1) * 2^971`, in multiples of `2^-1074`. -/
def maxFinite : Nat := (1 <<< 53 - 1) <<< 2045

/-- One step of `bitLen`: drop the `s` low bits where higher bits are left. -/
def bitLenStep (acc : Nat × Nat) (s : Nat) : Nat × Nat :=
  if acc.1 >>> s = 0 then acc else (acc.1 >>> s, acc.2 + s)

/-- The number of binary digits of `n` (`0` for `n = 0`). -/
def bitLen (n : Nat) : Nat :=
  if n = 0 then 0
  else if n >>> 8192 = 0 then
    ([4096, 2048, 1024, 512, 256, 128, 64, 32, 16, 8, 4, 2, 1].foldl bitLenStep (n, 0)).2 + 1
  else Nat.log2 n + 1

/-- Rounding to nearest, ties to even: the binary64 number nearest to
`(-1)^neg * (n / d) * 2^-1074`.  A number keeps 53 binary digits (fewer below
`2^-1022`), and a rounded number above `maxFinite` is an infinity. -/
def round (neg : Bool) (n d : Nat) : F64 :=
  let q := n / d
  let j := bitLen q - 53
  let u := d <<< j
  let m := n / u
  let r := n % u
  let m1 := if 2 * r < u then m else if u < 2 * r then m + 1 else if m % 2 = 0 then m else m + 1
  let k := m1 <<< j
  if maxFinite < k then inf neg else finite neg k

/-- The number `-x`. -/
def neg : F64 → F64
  | finite s k => finite (!s) k
  | inf s => inf (!s)
  | nan => nan

/-- The sum `x + y`, rounded. -/
def add : F64 → F64 → F64
  | nan, _ => nan
  | _, nan => nan
  | inf s, inf t => if s = t then inf s else nan
  | inf s, finite _ _ => inf s
  | finite _ _, inf t => inf t
  | finite s k, finite t l =>
    if s = t then round s (k + l) 1
    else if k = l then finite false 0
    else if l < k then round s (k - l) 1
    else round t (l - k) 1

/-- The difference `x - y`, rounded. -/
def sub (x y : F64) : F64 := add x (neg y)

/-- The product `x * y`, rounded. -/
def mul : F64 → F64 → F64
  | nan, _ => nan
  | _, nan => nan
  | inf s, inf t => inf (xor s t)
  | inf s, finite t l => if l = 0 then nan else inf (xor s t)
  | finite s k, inf t => if k = 0 then nan else inf (xor s t)
  | finite s k, finite t l => round (xor s t) (k * l) one

/-- The quotient `x / y`, rounded: a division by zero is `NaN` for `0 / 0` and an
infinity otherwise. -/
def div : F64 → F64 → F64
  | nan, _ => nan
  | _, nan => nan
  | inf _, inf _ => nan
  | inf s, finite t _ => inf (xor s t)
  | finite s _, inf t => finite (xor s t) 0
  | finite s k, finite t l =>
    if l = 0 then (if k = 0 then nan else inf (xor s t))
    else round (xor s t) (k * one) l

/-- The square root of `x`, rounded; `NaN` for a number below zero. -/
def sqrt : F64 → F64
  | nan => nan
  | inf s => if s then nan else inf false
  | finite s k =>
    if k = 0 then finite s 0
    else if s then nan
    else
      let n := 4 * (k * one)
      let r := Nat.sqrt n
      round false (2 * r + (if r * r = n then 0 else 1)) 4

/-- The comparison `x <= y`: false where `x` or `y` is `NaN`. -/
def le : F64 → F64 → Bool
  | nan, _ => false
  | _, nan => false
  | inf s, inf t => s || !t
  | inf s, finite _ _ => s
  | finite _ _, inf t => !t
  | finite s k, finite t l =>
    if s then (if t then decide (l ≤ k) else true)
    else (if t then decide (k = 0 ∧ l = 0) else decide (k ≤ l))

/-- Whether a number is finite: neither an infinity nor `NaN`. -/
def isFinite : F64 → Bool
  | finite _ _ => true
  | inf _ => false
  | nan => false

/-- The binary64 number nearest to `(-1)^neg * n / d`, the value of a literal. -/
def lit (neg : Bool) (n d : Nat) : F64 := round neg (n * one) d

instance instAdd : Add F64 := ⟨add⟩

instance instSub : Sub F64 := ⟨sub⟩

instance instMul : Mul F64 := ⟨mul⟩

instance instDiv : Div F64 := ⟨div⟩

end F64

/-- Modelled from the spec: the operations of `Vec2r` on machine numbers, every
coordinate operation rounded, the dot product summed from left to right. -/
instance instPointAlgebraVec2F64 : PointAlgebra F64 (Vec2 F64) where
  sub U V := ⟨U.x - V.x, U.y - V.y⟩
  add U V := ⟨U.x + V.x, U.y + V.y⟩
  smul k V := ⟨k * V.x, k * V.y⟩
  dot U V := U.x * V.x + U.y * V.y

/-- Modelled from the spec: the operations of `Vec3r` on machine numbers, every
coordinate operation rounded, the dot product summed from left to right. -/
instance instPointAlgebraVec3F64 : PointAlgebra F64 (Vec3 F64) where
  sub U V := ⟨U.x - V.x, U.y - V.y, U.z - V.z⟩
  add U V := ⟨U.x + V.x, U.y + V.y, U.z + V.z⟩
  smul k V := ⟨k * V.x, k * V.y, k * V.z⟩
  dot U V := U.x * V.x + U.y * V.y + U.z * V.z

namespace Machine

/-- Modelled from the spec: `V.norm()` on machine numbers, the rounded square root of
the dot product of `V` with itself. -/
def norm {T : Type} [PointAlgebra F64 T] (V : T) : F64 :=
  F64.sqrt (PointAlgebra.dot V V)

/-- The template `distPointSegment` (GeomUtils.h, lines 48-69) on machine numbers: the
division is the division of the machine, with a result for every divisor. -/
def distPointSegment {T : Type} [PointAlgebra F64 T] (P A B : T) : F64 :=
  let AB := PointAlgebra.sub B A
  let AP := PointAlgebra.sub P A
  let BP := PointAlgebra.sub P B
  let c1 := PointAlgebra.dot AB AP
  if F64.le c1 (F64.finite false 0) then
    norm AP
  else
    let c2 := PointAlgebra.dot AB AB
    if F64.le c2 c1 then
      norm BP
    else
      let b := c1 / c2
      let Pb := PointAlgebra.add A (PointAlgebra.smul b AB)
      let PPb := PointAlgebra.sub P Pb
      norm PPb

/-- The division of `distPointSegment` (GeomUtils.h, line 63) on machine numbers: the
dividend `c1` and the divisor `c2` for a call that reaches the division, `none` for a
call that returns before it. -/
def distPointSegmentDivision {T : Type} [PointAlgebra F64 T] (P A B : T) :
    Option (F64 × F64) :=
  let AB := PointAlgebra.sub B A
  let AP := PointAlgebra.sub P A
  let c1 := PointAlgebra.dot AB AP
  if F64.le c1 (F64.finite false 0) then
    none
  else
    let c2 := PointAlgebra.dot AB AB
    if F64.le c2 c1 then
      none
    else
      some (c1, c2)

/-- The overload `segmentParam(Vec2r, Vec2r, Vec2r)` (GeomUtils.h, lines 329-334) on
machine numbers. -/
def segmentParam2 (A B P : Vec2 F64) : F64 :=
  let PA : Vec2 F64 := PointAlgebra.sub P A
  let BA : Vec2 F64 := PointAlgebra.sub B A
  PointAlgebra.dot PA BA / PointAlgebra.dot BA BA

/-- The overload `segmentParam(Vec3r, Vec3r, Vec3r)` (GeomUtils.h, lines 338-343) on
machine numbers. -/
def segmentParam3 (A B P : Vec3 F64) : F64 :=
  let PA : Vec3 F64 := PointAlgebra.sub P A
  let BA : Vec3 F64 := PointAlgebra.sub B A
  PointAlgebra.dot PA BA / PointAlgebra.dot BA BA

end Machine

end GeomUtils

/-! ## The CPU/GL vertex buffer (`cpuGLVertexBuffer.cpp`) -/

namespace OpenSubdiv

/-- The part of an OpenGL context that the buffer calls reached through `opengl.h` act
on.  The header is not among the sources: the three calls below follow the OpenGL
reference for `glGenBuffers`, `glBindBuffer` and `glBufferData`. -/
structure GLContext (α : Type) where
  /-- The data store of each buffer object name, `none` for a name without a data
  store; a value `none` in a data store is a value that was never written. -/
  dataStore : Nat → Option (List (Option α))
  /-- The buffer object bound to `GL_ARRAY_BUFFER`, `0` for none. -/
  arrayBuffer : Nat
  /-- The buffer object names in use are `1, ..., lastName`. -/
  lastName : Nat

section Calls
variable {α : Type}

/-- The conversion of an integer to the type `int` (32 bits, two's complement), which
is also the result of an `int` operation that leaves the range of `int`: the value
modulo `2^32`, from `-2^31` up to `2^31 - 1`. -/
def toInt (z : Int) : Int := (z + 2147483648) % 4294967296 - 2147483648

/-- The conversion of an integer to the type `size_t` (64 bits, no sign), which is also
the result of a `size_t` operation: the value modulo `2^64`. -/
def toSizeT (z : Int) : Int := z % 18446744073709551616

/-- The call `glGenBuffers(1, &name)`: an unused, non-zero buffer object name. -/
def glGenBuffers (gl : GLContext α) : Nat × GLContext α :=
  (gl.lastName + 1, { gl with lastName := gl.lastName + 1 })

/-- The call `glBindBuffer(GL_ARRAY_BUFFER, buffer)`. -/
def glBindBuffer (gl : GLContext α) (buffer : Nat) : GLContext α :=
  { gl with arrayBuffer := buffer }

/-- The call `glBufferData(GL_ARRAY_BUFFER, size, data, GL_STATIC_DRAW)`: a new data
store of `size` bytes for the buffer object bound to `GL_ARRAY_BUFFER`, filled from the
block `data` when `data` is not `NULL` (`size` bytes are `size / sizeof(real)` values).
A negative `size`, or no bound buffer object, is an OpenGL error that changes
nothing. -/
def glBufferData (sizeofReal : ℕ+) (gl : GLContext α) (size : Int)
    (data : Option (List α)) : GLContext α :=
  if size < 0 ∨ gl.arrayBuffer = 0 then gl
  else
    let n := (size / ((sizeofReal : Nat) : Int)).toNat
    let store : List (Option α) :=
      match data with
      | none => List.replicate n none
      | some block => (block.take n).map some
    { gl with dataStore := Function.update gl.dataStore gl.arrayBuffer (some store) }

/-- The call `glDeleteBuffers(1, &name)`: the data store of `name` is gone, and `name`
is no longer bound.  The name `0` is ignored. -/
def glDeleteBuffers (gl : GLContext α) (name : Nat) : GLContext α :=
  if name = 0 then gl
  else
    { gl with
      dataStore := Function.update gl.dataStore name none
      arrayBuffer := if gl.arrayBuffer = name then 0 else gl.arrayBuffer }

/-- The call `memcpy(dst + off, src, n)` on blocks of `real`, `off` counted in values
and `n` in bytes (`n / sizeof(real)` values, `n` being a `size_t`): the values of
`src` replace those of `dst` from the index `off` on.  A copy that leaves one of the
two blocks has no defined behaviour: `none`. -/
def memcpy (sizeofReal : ℕ+) (dst : List α) (off : Int) (src : List α) (n : Int) :
    Option (List α) :=
  let cnt := n / ((sizeofReal : Nat) : Int)
  if 0 ≤ off ∧ 0 ≤ n ∧ off + cnt ≤ (dst.length : Int) ∧ cnt ≤ (src.length : Int) then
    some (dst.take off.toNat ++ (src.take cnt.toNat ++ dst.drop (off.toNat + cnt.toNat)))
  else
    none

end Calls

/-- The data members of the class `OsdCpuGLVertexBuffer`.  The block `_cpuBuffer`
points to is the list of its values; the null pointer of the constructor is the empty
block. -/
structure OsdCpuGLVertexBuffer (α : Type) where
  _numElements : Int
  _numVertices : Int
  _vbo : Nat
  _cpuBuffer : List α
  _dataDirty : Bool

namespace OsdCpuGLVertexBuffer

variable {α : Type}

/-- The constructor (lines 34-37). -/
def new (numElements numVertices : Int) : OsdCpuGLVertexBuffer α :=
  { _numElements := numElements
    _numVertices := numVertices
    _vbo := 0
    _cpuBuffer := []
    _dataDirty := true }

/-- The method `GetNumElements` (lines 61-65). -/
def GetNumElements (self : OsdCpuGLVertexBuffer α) : Int :=
  self._numElements

/-- The method `GetNumVertices` (lines 67-71). -/
def GetNumVertices (self : OsdCpuGLVertexBuffer α) : Int :=
  self._numVertices

/-- The method `UpdateData` (lines 54-59).  It has a result where the `memcpy` stays
within the two blocks. -/
def UpdateData (sizeofReal : ℕ+) (self : OsdCpuGLVertexBuffer α) (src : List α)
    (startVertex numVertices : Int) : Option (OsdCpuGLVertexBuffer α) :=
  (memcpy sizeofReal self._cpuBuffer (startVertex * self.GetNumElements) src
      (self.GetNumElements * numVertices * ((sizeofReal : Nat) : Int))).map fun block =>
    { self with _cpuBuffer := block, _dataDirty := true }

/-- The method `BindCpuBuffer` (lines 73-77): the block the caller may write to, and the
buffer after the call. -/
def BindCpuBuffer (self : OsdCpuGLVertexBuffer α) : List α × OsdCpuGLVertexBuffer α :=
  let self1 := { self with _dataDirty := true }
  (self1._cpuBuffer, self1)

/-- The method `BindVBO` (lines 79-92): the handle, the buffer and the OpenGL context
after the call.  At line 84 the product of the two counts is an `int`, its product with
`sizeof(real)` a `size_t`, and `size` an `int` again. -/
def BindVBO (sizeofReal : ℕ+) (self : OsdCpuGLVertexBuffer α) (gl : GLContext α) :
    Nat × OsdCpuGLVertexBuffer α × GLContext α :=
  if !self._dataDirty then
    (self._vbo, self, gl)
  else
    let size : Int :=
      toInt (toSizeT (toSizeT (toInt (self.GetNumElements * self.GetNumVertices))
        * ((sizeofReal : Nat) : Int)))
    let gl1 := glBindBuffer gl self._vbo
    let gl2 := glBufferData sizeofReal gl1 size (some self._cpuBuffer)
    let gl3 := glBindBuffer gl2 0
    (self._vbo, { self with _dataDirty := false }, gl3)

/-- The method `allocate` (lines 94-106).  The count of `new real[n]` is the `int`
product of the two counts; for a negative count the expression throws
`std::bad_array_new_length`, and where no memory is left it throws `std::bad_alloc`:
`allocate` has no result then.  The block that `new real[n]` returns is
`fresh n`, `none` where no memory is left; its values are not initialised, they are
whatever `fresh n` says.  The `int size` of line 98 is that of `BindVBO`. -/
def allocate (sizeofReal : ℕ+) (self : OsdCpuGLVertexBuffer α) (gl : GLContext α)
    (fresh : Nat → Option (Nat → α)) :
    Option (Bool × OsdCpuGLVertexBuffer α × GLContext α) :=
  let n : Int := toInt (self.GetNumElements * self.GetNumVertices)
  if n < 0 then none
  else
    match fresh n.toNat with
    | none => none
    | some values =>
      let self1 := { self with _cpuBuffer := (List.range n.toNat).map values }
      let self2 := { self1 with _dataDirty := true }
      let size : Int :=
        toInt (toSizeT (toSizeT (toInt (self2.GetNumElements * self2.GetNumVertices))
          * ((sizeofReal : Nat) : Int)))
      let r := glGenBuffers gl
      let self3 := { self2 with _vbo := r.1 }
      let gl2 := glBindBuffer r.2 self3._vbo
      let gl3 := glBufferData sizeofReal gl2 size none
      let gl4 := glBindBuffer gl3 0
      some (true, self3, gl4)

/-- The destructor (lines 39-43): what is left of the OpenGL context. -/
def delete (self : OsdCpuGLVertexBuffer α) (gl : GLContext α) : GLContext α :=
  glDeleteBuffers gl self._vbo

/-- The static method `Create` (lines 45-52): the instance, `none` for `NULL`, and the
OpenGL context after the call; no result where `allocate` throws. -/
def Create (sizeofReal : ℕ+) (numElements numVertices : Int) (gl : GLContext α)
    (fresh : Nat → Option (Nat → α)) :
    Option (Option (OsdCpuGLVertexBuffer α) × GLContext α) :=
  let inst : OsdCpuGLVertexBuffer α := new numElements numVertices
  (allocate sizeofReal inst gl fresh).map fun r =>
    if r.1 then (some r.2.1, r.2.2)
    else (none, delete r.2.1 r.2.2)

/-- The invariant of a buffer that `Create` returned: `_vbo` names a buffer object and
`_cpuBuffer` points to `_numElements × _numVertices` values. -/
def Allocated (self : OsdCpuGLVertexBuffer α) : Prop :=
  self._vbo ≠ 0 ∧ (self._cpuBuffer.length : Int) = self._numElements * self._numVertices

/-- The byte size `_numElements × _numVertices × sizeof(real)` of the CPU buffer is
within the range of `int`. -/
def FitsInt (sizeofReal : ℕ+) (self : OsdCpuGLVertexBuffer α) : Prop :=
  self._numElements * self._numVertices * ((sizeofReal : Nat) : Int) < 2147483648

/-- A call of a client on a buffer.  The client of `BindCpuBuffer` may write to the
block it receives: `written` is the block as the client leaves it, and the writes are
taken to happen at the call. -/
inductive Call (α : Type) where
  | updateData (src : List α) (startVertex numVertices : Int)
  | bindCpuBuffer (written : List α)
  | bindVBO

/-- The buffer and the OpenGL context after a call; `none` where the call has no defined
behaviour: an `UpdateData` out of its bounds, a client of `BindCpuBuffer` that leaves a
block of another length. -/
def step (sizeofReal : ℕ+) (c : Call α) (st : OsdCpuGLVertexBuffer α × GLContext α) :
    Option (OsdCpuGLVertexBuffer α × GLContext α) :=
  match c with
  | Call.updateData src startVertex numVertices =>
    (UpdateData sizeofReal st.1 src startVertex numVertices).map fun self1 => (self1, st.2)
  | Call.bindCpuBuffer written =>
    let r := BindCpuBuffer st.1
    if written.length = r.1.length then
      some ({ r.2 with _cpuBuffer := written }, st.2)
    else
      none
  | Call.bindVBO =>
    some (BindVBO sizeofReal st.1 st.2).2

/-- The buffer and the OpenGL context after a sequence of calls. -/
def run (sizeofReal : ℕ+) (cs : List (Call α))
    (st : OsdCpuGLVertexBuffer α × GLContext α) :
    Option (OsdCpuGLVertexBuffer α × GLContext α) :=
  match cs with
  | [] => some st
  | c :: rest => (step sizeofReal c st).bind (run sizeofReal rest)

/-- The dirty-flag discipline: with the flag down, the data store of the buffer object
holds the values of the CPU buffer. -/
def InSync (st : OsdCpuGLVertexBuffer α × GLContext α) : Prop :=
  st.1._dataDirty = false → st.2.dataStore st.1._vbo = some (st.1._cpuBuffer.map some)

end OsdCpuGLVertexBuffer

end OpenSubdiv

/-! ## Lemmas on the vector operations -/

namespace GeomUtils

section Lemmas
variable {K : Type} [LinearOrderedField K]

open PointAlgebra

/-- All three branches of `distPointSegment` return a value, on every point type: where
the division is reached the divisor `c2` is above `c1 > 0`. -/
theorem distPointSegment_eq_some {T : Type} [PointAlgebra K T] (sqrt : K → K)
    (P A B : T) :
    distPointSegment sqrt P A B = some (
      if dot (sub B A) (sub P A) ≤ 0 then norm sqrt (sub P A)
      else if dot (sub B A) (sub B A) ≤ dot (sub B A) (sub P A) then norm sqrt (sub P B)
      else norm sqrt (sub P (add A (smul
        (dot (sub B A) (sub P A) / dot (sub B A) (sub B A)) (sub B A))))) := by
  unfold distPointSegment
  by_cases h1 : dot (sub B A) (sub P A) ≤ 0
  · simp [h1]
  · by_cases h2 : dot (sub B A) (sub B A) ≤ dot (sub B A) (sub P A)
    · simp [h1, h2]
    · have hne : dot (sub B A) (sub B A) ≠ 0 := by
        intro h0
        rw [h0] at h2
        exact h2 (le_of_lt (not_le.mp h1))
      simp [h1, h2, realDiv, hne]

/-- A vector whose dot product with itself is zero is the zero vector. -/
theorem Vec3.dot_self_eq_zero (V : Vec3 K) : Vec3.dot V V = 0 ↔ V = ⟨0, 0, 0⟩ := by
  constructor
  · intro h
    simp only [Vec3.dot] at h
    have hx : V.x = 0 := by
      nlinarith [mul_self_nonneg V.x, mul_self_nonneg V.y, mul_self_nonneg V.z]
    have hy : V.y = 0 := by
      nlinarith [mul_self_nonneg V.x, mul_self_nonneg V.y, mul_self_nonneg V.z]
    have hz : V.z = 0 := by
      nlinarith [mul_self_nonneg V.x, mul_self_nonneg V.y, mul_self_nonneg V.z]
    cases V
    simp_all
  · rintro rfl
    simp [Vec3.dot]

/-- A vector `B - A` is zero exactly when `A = B`. -/
theorem Vec3.sub_eq_origin (A B : Vec3 K) : Vec3.sub B A = ⟨0, 0, 0⟩ ↔ A = B := by
  cases A
  cases B
  simp only [Vec3.sub, Vec3.mk.injEq]
  constructor
  · rintro ⟨h1, h2, h3⟩
    exact ⟨(sub_eq_zero.mp h1).symm, (sub_eq_zero.mp h2).symm, (sub_eq_zero.mp h3).symm⟩
  · rintro ⟨rfl, rfl, rfl⟩
    simp

/-- The divisor of `segmentParam` in space is zero exactly on a degenerate segment. -/
theorem Vec3.divisor3_eq_zero (A B : Vec3 K) :
    Vec3.dot (Vec3.sub B A) (Vec3.sub B A) = 0 ↔ A = B := by
  rw [Vec3.dot_self_eq_zero, Vec3.sub_eq_origin]

/-- The divisor of `segmentParam` in the plane is zero exactly on a degenerate segment. -/
theorem Vec2.divisor2_eq_zero (A B : Vec2 K) :
    Vec2.dot (Vec2.sub B A) (Vec2.sub B A) = 0 ↔ A = B := by
  cases A with
  | mk ax ay =>
  cases B with
  | mk bx byy =>
  simp only [Vec2.dot, Vec2.sub, Vec2.mk.injEq]
  constructor
  · intro h
    have hx : bx - ax = 0 := by
      nlinarith [mul_self_nonneg (bx - ax), mul_self_nonneg (byy - ay)]
    have hy : byy - ay = 0 := by
      nlinarith [mul_self_nonneg (bx - ax), mul_self_nonneg (byy - ay)]
    exact ⟨(sub_eq_zero.mp hx).symm, (sub_eq_zero.mp hy).symm⟩
  · rintro ⟨rfl, rfl⟩
    simp

/-- The operations of the point type `Vec3r`. -/
theorem PointAlgebra.vec3_ops :
    (∀ U V : Vec3 K, PointAlgebra.sub U V = Vec3.sub U V) ∧
    (∀ U V : Vec3 K, PointAlgebra.add U V = Vec3.add U V) ∧
    (∀ (k : K) (V : Vec3 K), PointAlgebra.smul k V = Vec3.smul k V) ∧
    (∀ U V : Vec3 K, PointAlgebra.dot U V = Vec3.dot U V) :=
  ⟨fun _ _ => rfl, fun _ _ => rfl, fun _ _ => rfl, fun _ _ => rfl⟩

/-- The operations of the point type `Vec2r`. -/
theorem PointAlgebra.vec2_ops :
    (∀ U V : Vec2 K, PointAlgebra.sub U V = Vec2.sub U V) ∧
    (∀ U V : Vec2 K, PointAlgebra.add U V = Vec2.add U V) ∧
    (∀ (k : K) (V : Vec2 K), PointAlgebra.smul k V = Vec2.smul k V) ∧
    (∀ U V : Vec2 K, PointAlgebra.dot U V = Vec2.dot U V) :=
  ⟨fun _ _ => rfl, fun _ _ => rfl, fun _ _ => rfl, fun _ _ => rfl⟩

/-- The norm of a vector of the plane is the norm of the vector of space it stands
for. -/
theorem norm_embed (sqrt : K → K) (V : Vec2 K) :
    norm sqrt (Vec2.embed V) = norm sqrt V := by
  simp [norm, PointAlgebra.dot, Vec3.dot, Vec2.dot, Vec2.embed]

/-- Subtraction commutes with the embedding of the plane in space. -/
theorem Vec2.embed_sub (U V : Vec2 K) :
    Vec2.embed (Vec2.sub U V) = Vec3.sub (Vec2.embed U) (Vec2.embed V) := by
  simp [Vec2.embed, Vec2.sub, Vec3.sub]

/-- Addition commutes with the embedding of the plane in space. -/
theorem Vec2.embed_add (U V : Vec2 K) :
    Vec2.embed (Vec2.add U V) = Vec3.add (Vec2.embed U) (Vec2.embed V) := by
  simp [Vec2.embed, Vec2.add, Vec3.add]

/-- Scalar multiplication commutes with the embedding of the plane in space. -/
theorem Vec2.embed_smul (k : K) (V : Vec2 K) :
    Vec2.embed (Vec2.smul k V) = Vec3.smul k (Vec2.embed V) := by
  simp [Vec2.embed, Vec2.smul, Vec3.smul]

/-- The dot product of two vectors of the plane is the dot product of the vectors of
space they stand for. -/
theorem Vec2.dot_embed (U V : Vec2 K) :
    Vec3.dot (Vec2.embed U) (Vec2.embed V) = Vec2.dot U V := by
  simp [Vec2.embed, Vec2.dot, Vec3.dot]

/-- The instance of `distPointSegment` for `Vec2r` computes what the instance for
`Vec3r` computes on the same points with a third coordinate `0`. -/
theorem distPointSegment_embed (sqrt : K → K) (P A B : Vec2 K) :
    distPointSegment sqrt (Vec2.embed P) (Vec2.embed A) (Vec2.embed B)
      = distPointSegment sqrt P A B := by
  rw [distPointSegment_eq_some, distPointSegment_eq_some]
  simp only [PointAlgebra.vec3_ops.1, PointAlgebra.vec3_ops.2.1, PointAlgebra.vec3_ops.2.2.1,
    PointAlgebra.vec3_ops.2.2.2, PointAlgebra.vec2_ops.1, PointAlgebra.vec2_ops.2.1,
    PointAlgebra.vec2_ops.2.2.1, PointAlgebra.vec2_ops.2.2.2,
    ← Vec2.embed_sub, ← Vec2.embed_smul, ← Vec2.embed_add, Vec2.dot_embed, norm_embed]

end Lemmas

/-! ## Lemmas on the distance to a segment, over `ℝ` -/

section RealLemmas

open PointAlgebra

end RealLemmas

end GeomUtils

/-! ## Lemmas on the CPU buffer -/

namespace OpenSubdiv

section BufferLemmas
variable {α : Type}

/-- The block that `memcpy` leaves is as long as the block it wrote to. -/
theorem splice_length (dst src : List α) (a c : Nat)
    (h1 : a + c ≤ dst.length) (h2 : c ≤ src.length) :
    (dst.take a ++ (src.take c ++ dst.drop (a + c))).length = dst.length := by
  simp only [List.length_append, List.length_take, List.length_drop]
  omega

/-- A byte count `n * sizeof(real)` is a count of `n` values. -/
theorem bytes_div_sizeof (sizeofReal : ℕ+) (n : Int) :
    n * ((sizeofReal : Nat) : Int) / ((sizeofReal : Nat) : Int) = n := by
  have h : ((sizeofReal : Nat) : Int) ≠ 0 := by
    have := sizeofReal.pos
    omega
  exact Int.mul_ediv_cancel n h

/-- An integer within the range of `int` is its own conversion to `int`. -/
theorem toInt_of_range (z : Int) (h0 : -2147483648 ≤ z) (h1 : z < 2147483648) :
    toInt z = z := by
  unfold toInt
  omega

/-- The `int size` of `BindVBO` and `allocate` is the byte size of the buffer where that
byte size is within the range of `int`. -/
theorem size_of_range (sizeofReal : ℕ+) (p : Int) (h0 : 0 ≤ p)
    (h1 : p * ((sizeofReal : Nat) : Int) < 2147483648) :
    toInt (toSizeT (toSizeT (toInt p) * ((sizeofReal : Nat) : Int)))
      = p * ((sizeofReal : Nat) : Int) := by
  have hs : (1 : Int) ≤ ((sizeofReal : Nat) : Int) := by
    have := sizeofReal.pos
    omega
  have hp : p ≤ p * ((sizeofReal : Nat) : Int) := by nlinarith
  have hb : 0 ≤ p * ((sizeofReal : Nat) : Int) := le_trans h0 hp
  rw [toInt_of_range p (by omega) (by omega)]
  have e1 : toSizeT p = p := by
    unfold toSizeT
    omega
  rw [e1]
  generalize p * ((sizeofReal : Nat) : Int) = b at h1 hb
  unfold toSizeT toInt
  omega

/-- What `allocate` returns, where `new real[n]` does not throw, is `true`, with a buffer
that has a buffer object, the counts it had, a CPU buffer of as many values as the `int`
product of the counts says, and the flag up. -/
theorem OsdCpuGLVertexBuffer.allocate_result (sizeofReal : ℕ+)
    (self : OsdCpuGLVertexBuffer α) (gl : GLContext α) (fresh : Nat → Option (Nat → α))
    (r : Bool × OsdCpuGLVertexBuffer α × GLContext α)
    (h : OsdCpuGLVertexBuffer.allocate sizeofReal self gl fresh = some r) :
    r.1 = true ∧ r.2.1._vbo ≠ 0 ∧
      r.2.1._numElements = self._numElements ∧ r.2.1._numVertices = self._numVertices ∧
      0 ≤ toInt (self._numElements * self._numVertices) ∧
      r.2.1._cpuBuffer.length = (toInt (self._numElements * self._numVertices)).toNat ∧
      r.2.1._dataDirty = true := by
  unfold OsdCpuGLVertexBuffer.allocate at h
  simp only [OsdCpuGLVertexBuffer.GetNumElements, OsdCpuGLVertexBuffer.GetNumVertices] at h
  by_cases hn : toInt (self._numElements * self._numVertices) < 0
  · simp [hn] at h
  · rw [if_neg hn] at h
    cases hf : fresh (toInt (self._numElements * self._numVertices)).toNat with
    | none => simp [hf] at h
    | some values =>
      simp only [hf, Option.some.injEq] at h
      subst h
      refine ⟨rfl, ?_, rfl, rfl, not_lt.mp hn, ?_, rfl⟩
      · simp [glGenBuffers]
      · simp only [List.length_map, List.length_range]

/-- What `allocate` returns satisfies the invariant `Allocated` where the product of the
counts is within the range of `int`. -/
theorem OsdCpuGLVertexBuffer.allocate_Allocated (sizeofReal : ℕ+)
    (self : OsdCpuGLVertexBuffer α) (gl : GLContext α) (fresh : Nat → Option (Nat → α))
    (r : Bool × OsdCpuGLVertexBuffer α × GLContext α)
    (h : OsdCpuGLVertexBuffer.allocate sizeofReal self gl fresh = some r)
    (h0 : 0 ≤ self._numElements * self._numVertices)
    (h1 : self._numElements * self._numVertices < 2147483648) :
    OsdCpuGLVertexBuffer.Allocated r.2.1 := by
  obtain ⟨_, hv, he, hnv, _, hl, _⟩ :=
    OsdCpuGLVertexBuffer.allocate_result sizeofReal self gl fresh r h
  refine ⟨hv, ?_⟩
  rw [hl, he, hnv, toInt_of_range _ (by omega) h1]
  exact Int.toNat_of_nonneg h0

end BufferLemmas

end OpenSubdiv

/-! ## Lemmas on machine numbers -/

namespace GeomUtils

namespace F64

/-- Rounding keeps the sign: a rounded number is an infinity or a finite number of the
sign it was given. -/
theorem round_sign (s : Bool) (n d : Nat) :
    round s n d = inf s ∨ ∃ k, round s n d = finite s k := by
  have key : ∀ (c : Prop) [Decidable c] (k : Nat),
      (if c then inf s else finite s k) = inf s
        ∨ ∃ k1, (if c then inf s else finite s k) = finite s k1 := by
    intro c _ k
    by_cases hc : c
    · exact Or.inl (if_pos hc)
    · exact Or.inr ⟨k, if_neg hc⟩
  exact key _ _

/-- Rounding zero gives zero. -/
theorem round_zero (s : Bool) (d : Nat) : round s 0 d = finite s 0 := by
  simp [round, bitLen, maxFinite]

/-- A square root is `NaN` or not below zero. -/
theorem sqrt_nan_or_nonneg (x : F64) :
    sqrt x = nan ∨ le (finite false 0) (sqrt x) = true := by
  cases x with
  | nan => exact Or.inl rfl
  | inf s =>
    cases s
    · exact Or.inr rfl
    · exact Or.inl rfl
  | finite s k =>
    simp only [sqrt]
    by_cases hk : k = 0
    · right
      rw [if_pos hk]
      cases s <;> rfl
    · rw [if_neg hk]
      cases s
      · right
        simp only [Bool.false_eq_true, if_false]
        rcases round_sign false
          (2 * Nat.sqrt (4 * (k * one))
            + (if Nat.sqrt (4 * (k * one)) * Nat.sqrt (4 * (k * one)) = 4 * (k * one)
                then 0 else 1)) 4 with h | ⟨m, h⟩
        · rw [h]
          rfl
        · rw [h]
          simp [le]
      · left
        simp

/-- Two numbers that are not `NaN` compare one way or the other. -/
theorem le_total (x y : F64) (hx : x ≠ nan) (hy : y ≠ nan) :
    le x y = true ∨ le y x = true := by
  cases x with
  | nan => exact absurd rfl hx
  | inf s =>
    cases y with
    | nan => exact absurd rfl hy
    | inf t => cases s <;> cases t <;> simp [le]
    | finite t l => cases s <;> simp [le]
  | finite s k =>
    cases y with
    | nan => exact absurd rfl hy
    | inf t => cases t <;> simp [le]
    | finite t l =>
      cases s <;> cases t <;> simp [le]
      · exact Nat.le_total k l
      · exact Nat.le_total l k

/-- A division by a zero gives `NaN` or an infinity. -/
theorem div_zero (x : F64) (s : Bool) :
    x / finite s 0 = nan ∨ ∃ t, x / finite s 0 = inf t := by
  show div x (finite s 0) = nan ∨ ∃ t, div x (finite s 0) = inf t
  cases x with
  | nan => exact Or.inl rfl
  | inf t => exact Or.inr ⟨xor t s, rfl⟩
  | finite t k =>
    by_cases hk : k = 0
    · left
      simp [div, hk]
    · right
      exact ⟨xor t s, by simp [div, hk]⟩

/-- A finite number minus itself is the zero `+0`. -/
theorem sub_self_finite (s : Bool) (k : Nat) :
    finite s k - finite s k = finite false 0 := by
  show add (finite s k) (neg (finite s k)) = finite false 0
  cases s <;> simp [add, neg]

/-- The zero `+0` times a finite number is a zero. -/
theorem zero_mul_finite (t : Bool) (l : Nat) :
    finite false 0 * finite t l = finite t 0 := by
  show mul (finite false 0) (finite t l) = finite t 0
  simp [mul, round_zero]

/-- The sum of two zeros is a zero. -/
theorem zero_add_zero (s t : Bool) :
    ∃ u, finite s 0 + finite t 0 = finite u 0 := by
  show ∃ u, add (finite s 0) (finite t 0) = finite u 0
  cases s <;> cases t <;> simp [add, round_zero]

/-- A zero is not above the zero `+0`. -/
theorem zero_le_zero (s : Bool) : le (finite s 0) (finite false 0) = true := by
  cases s <;> simp [le]

/-- A finite number is a number `finite s k`. -/
theorem isFinite_iff (x : F64) : isFinite x = true ↔ ∃ s k, x = finite s k := by
  cases x with
  | nan => simp [isFinite]
  | inf s => simp [isFinite]
  | finite s k => simp [isFinite]

/-- Shifting splits a product by a power of two. -/
theorem shift_split (l a b : Nat) : l * (1 <<< (a + b)) = (l <<< a) * (1 <<< b) := by
  simp only [Nat.shiftLeft_eq, one_mul, pow_add, Nat.mul_assoc]

/-- Shifting keeps a number above zero. -/
theorem shift_pos (l a : Nat) (hl : l ≠ 0) : 0 < l <<< a := by
  rw [Nat.shiftLeft_eq]
  exact Nat.mul_pos (Nat.pos_of_ne_zero hl) (Nat.two_pow_pos a)

/-- A quotient `l / l` rounds to `1`. -/
theorem round_self (l : Nat) (hl : l ≠ 0) : round false (l * one) l = finite false one := by
  have hq : l * one / l = one := Nat.mul_div_cancel_left _ (Nat.pos_of_ne_zero hl)
  have hb : bitLen one - 53 = 1022 := by decide
  have hu : l * one = (l <<< 1022) * (1 <<< 52) := shift_split l 1022 52
  have hpos : 0 < l <<< 1022 := shift_pos l 1022 hl
  have hm : l * one / (l <<< 1022) = 1 <<< 52 := by
    rw [hu]
    exact Nat.mul_div_cancel_left _ hpos
  have hr : l * one % (l <<< 1022) = 0 := by
    rw [hu]
    exact Nat.mul_mod_right _ _
  simp only [round, hq, hb, hm, hr, Nat.mul_zero, hpos, if_true]
  decide

/-- A finite number that is not a zero, divided by itself, is `1`. -/
theorem div_self_finite (t : Bool) (l : Nat) (hl : l ≠ 0) :
    finite t l / finite t l = finite false one := by
  show div (finite t l) (finite t l) = finite false one
  simp only [div, if_neg hl, Bool.xor_self]
  exact round_self l hl

/-- A zero divided by a finite number that is not a zero is a zero. -/
theorem zero_div_finite (u t : Bool) (l : Nat) (hl : l ≠ 0) :
    finite u 0 / finite t l = finite (xor u t) 0 := by
  show div (finite u 0) (finite t l) = finite (xor u t) 0
  simp only [div, if_neg hl, Nat.zero_mul]
  exact round_zero _ _

/-- A finite sum has finite terms. -/
theorem add_finite (x y : F64) (t : Bool) (l : Nat) (h : x + y = finite t l) :
    isFinite x = true ∧ isFinite y = true := by
  change add x y = finite t l at h
  cases x with
  | nan => simp [add] at h
  | inf s =>
    cases y with
    | nan => simp [add] at h
    | inf u =>
      by_cases e : s = u
      · simp [add, e] at h
      · simp [add, e] at h
    | finite u m => simp [add] at h
  | finite s k =>
    cases y with
    | nan => simp [add] at h
    | inf u => simp [add] at h
    | finite u m => exact ⟨rfl, rfl⟩

/-- A finite difference has finite terms. -/
theorem sub_finite (x y : F64) (t : Bool) (l : Nat) (h : x - y = finite t l) :
    isFinite x = true ∧ isFinite y = true := by
  have h1 : x + neg y = finite t l := h
  obtain ⟨hx, hy⟩ := add_finite x (neg y) t l h1
  refine ⟨hx, ?_⟩
  cases y with
  | nan => exact hy
  | inf u => exact hy
  | finite u m => rfl

/-- A finite square has a finite root. -/
theorem mul_self_finite (x : F64) (t : Bool) (l : Nat) (h : x * x = finite t l) :
    isFinite x = true := by
  change mul x x = finite t l at h
  cases x with
  | nan => simp [mul] at h
  | inf s => simp [mul] at h
  | finite s k => rfl

/-- A finite difference whose square is finite. -/
theorem sub_of_square_finite (x y : F64) (h : isFinite ((x - y) * (x - y)) = true) :
    isFinite y = true ∧ isFinite (x - y) = true := by
  obtain ⟨s, k, e⟩ := (isFinite_iff _).mp h
  have f := mul_self_finite _ s k e
  obtain ⟨u, m, g⟩ := (isFinite_iff _).mp f
  exact ⟨(sub_finite x y u m g).2, f⟩

end F64

namespace Machine

/-- In the plane, on a segment `A = B` of finite coordinates and for a finite `P - A`,
the number `c1` is a zero. -/
theorem c1_degenerate2 (P A : Vec2 F64)
    (hA : A.x.isFinite = true ∧ A.y.isFinite = true)
    (hPA : (PointAlgebra.sub P A).x.isFinite = true ∧
      (PointAlgebra.sub P A).y.isFinite = true) :
    ∃ u, PointAlgebra.dot (PointAlgebra.sub A A) (PointAlgebra.sub P A) = F64.finite u 0 := by
  obtain ⟨s1, k1, h1⟩ := (F64.isFinite_iff _).mp hA.1
  obtain ⟨s2, k2, h2⟩ := (F64.isFinite_iff _).mp hA.2
  obtain ⟨t1, l1, e1⟩ := (F64.isFinite_iff _).mp hPA.1
  obtain ⟨t2, l2, e2⟩ := (F64.isFinite_iff _).mp hPA.2
  show ∃ u, (A.x - A.x) * (PointAlgebra.sub P A).x + (A.y - A.y) * (PointAlgebra.sub P A).y
    = F64.finite u 0
  rw [e1, e2, h1, h2, F64.sub_self_finite, F64.sub_self_finite, F64.zero_mul_finite,
    F64.zero_mul_finite]
  exact F64.zero_add_zero t1 t2

/-- In space, on a segment `A = B` of finite coordinates and for a finite `P - A`, the
number `c1` is a zero. -/
theorem c1_degenerate3 (P A : Vec3 F64)
    (hA : A.x.isFinite = true ∧ A.y.isFinite = true ∧ A.z.isFinite = true)
    (hPA : (PointAlgebra.sub P A).x.isFinite = true ∧
      (PointAlgebra.sub P A).y.isFinite = true ∧ (PointAlgebra.sub P A).z.isFinite = true) :
    ∃ u, PointAlgebra.dot (PointAlgebra.sub A A) (PointAlgebra.sub P A) = F64.finite u 0 := by
  obtain ⟨s1, k1, h1⟩ := (F64.isFinite_iff _).mp hA.1
  obtain ⟨s2, k2, h2⟩ := (F64.isFinite_iff _).mp hA.2.1
  obtain ⟨s3, k3, h3⟩ := (F64.isFinite_iff _).mp hA.2.2
  obtain ⟨t1, l1, e1⟩ := (F64.isFinite_iff _).mp hPA.1
  obtain ⟨t2, l2, e2⟩ := (F64.isFinite_iff _).mp hPA.2.1
  obtain ⟨t3, l3, e3⟩ := (F64.isFinite_iff _).mp hPA.2.2
  show ∃ u, (A.x - A.x) * (PointAlgebra.sub P A).x + (A.y - A.y) * (PointAlgebra.sub P A).y
    + (A.z - A.z) * (PointAlgebra.sub P A).z = F64.finite u 0
  rw [e1, e2, e3, h1, h2, h3, F64.sub_self_finite, F64.sub_self_finite,
    F64.sub_self_finite, F64.zero_mul_finite, F64.zero_mul_finite, F64.zero_mul_finite]
  obtain ⟨u, hu⟩ := F64.zero_add_zero t1 t2
  rw [hu]
  exact F64.zero_add_zero u t3

/-- On machine numbers a call whose number `c1` is a zero returns `|P-A|` before the
division. -/
theorem first_branch {T : Type} [PointAlgebra F64 T] (P A B : T) (u : Bool)
    (h : PointAlgebra.dot (PointAlgebra.sub B A) (PointAlgebra.sub P A) = F64.finite u 0) :
    distPointSegmentDivision P A B = none ∧
      distPointSegment P A B = norm (PointAlgebra.sub P A) := by
  simp only [distPointSegmentDivision, distPointSegment, h, F64.zero_le_zero, if_true,
    and_self]

/-- On machine numbers a call that reaches the division has a number `c1` above zero and
below `c2`, unless `c1` or `c2` is `NaN`. -/
theorem division_reached {T : Type} [PointAlgebra F64 T] (P A B : T) (c1 c2 : F64)
    (h : distPointSegmentDivision P A B = some (c1, c2)) :
    c1 = PointAlgebra.dot (PointAlgebra.sub B A) (PointAlgebra.sub P A) ∧
    c2 = PointAlgebra.dot (PointAlgebra.sub B A) (PointAlgebra.sub B A) ∧
    (c1 = F64.nan ∨ c2 = F64.nan ∨
      (F64.le (F64.finite false 0) c1 = true ∧ F64.le c1 (F64.finite false 0) = false ∧
        F64.le c1 c2 = true ∧ F64.le c2 c1 = false)) ∧
    distPointSegment P A B = norm (PointAlgebra.sub P
      (PointAlgebra.add A (PointAlgebra.smul (c1 / c2) (PointAlgebra.sub B A)))) := by
  simp only [distPointSegmentDivision] at h
  cases h1 : F64.le (PointAlgebra.dot (PointAlgebra.sub B A) (PointAlgebra.sub P A))
      (F64.finite false 0) with
  | true => simp [h1] at h
  | false =>
    cases h2 : F64.le (PointAlgebra.dot (PointAlgebra.sub B A) (PointAlgebra.sub B A))
        (PointAlgebra.dot (PointAlgebra.sub B A) (PointAlgebra.sub P A)) with
    | true => simp [h1, h2] at h
    | false =>
      simp only [h1, h2, Bool.false_eq_true, if_false, Option.some.injEq,
        Prod.mk.injEq] at h
      obtain ⟨e1, e2⟩ := h
      subst e1 e2
      refine ⟨rfl, rfl, ?_, ?_⟩
      · by_cases n1 : PointAlgebra.dot (PointAlgebra.sub B A) (PointAlgebra.sub P A)
            = F64.nan
        · exact Or.inl n1
        · by_cases n2 : PointAlgebra.dot (PointAlgebra.sub B A) (PointAlgebra.sub B A)
              = F64.nan
          · exact Or.inr (Or.inl n2)
          · right
            right
            refine ⟨?_, h1, ?_, h2⟩
            · rcases F64.le_total _ _ n1 (by decide : F64.finite false 0 ≠ F64.nan)
                with h3 | h3
              · rw [h1] at h3
                exact absurd h3 (by decide)
              · exact h3
            · rcases F64.le_total _ _ n2 n1 with h3 | h3
              · rw [h2] at h3
                exact absurd h3 (by decide)
              · exact h3
      · simp only [distPointSegment, h1, h2, Bool.false_eq_true, if_false]

/-- In the plane, a finite divisor `(B-A)·(B-A)` has a finite `A` and a finite `B - A`. -/
theorem divisor_finite2 (A B : Vec2 F64) (t : Bool) (l : Nat)
    (hd : PointAlgebra.dot (PointAlgebra.sub B A : Vec2 F64) (PointAlgebra.sub B A)
      = F64.finite t l) :
    (A.x.isFinite = true ∧ A.y.isFinite = true) ∧
    ((PointAlgebra.sub B A : Vec2 F64).x.isFinite = true ∧
      (PointAlgebra.sub B A : Vec2 F64).y.isFinite = true) := by
  have hd1 : (B.x - A.x) * (B.x - A.x) + (B.y - A.y) * (B.y - A.y) = F64.finite t l := hd
  obtain ⟨h1, h2⟩ := F64.add_finite _ _ t l hd1
  obtain ⟨a1, f1⟩ := F64.sub_of_square_finite _ _ h1
  obtain ⟨a2, f2⟩ := F64.sub_of_square_finite _ _ h2
  exact ⟨⟨a1, a2⟩, ⟨f1, f2⟩⟩

/-- In space, a finite divisor `(B-A)·(B-A)` has a finite `A` and a finite `B - A`. -/
theorem divisor_finite3 (A B : Vec3 F64) (t : Bool) (l : Nat)
    (hd : PointAlgebra.dot (PointAlgebra.sub B A : Vec3 F64) (PointAlgebra.sub B A)
      = F64.finite t l) :
    (A.x.isFinite = true ∧ A.y.isFinite = true ∧ A.z.isFinite = true) ∧
    ((PointAlgebra.sub B A : Vec3 F64).x.isFinite = true ∧
      (PointAlgebra.sub B A : Vec3 F64).y.isFinite = true ∧
      (PointAlgebra.sub B A : Vec3 F64).z.isFinite = true) := by
  have hd1 : (B.x - A.x) * (B.x - A.x) + (B.y - A.y) * (B.y - A.y)
      + (B.z - A.z) * (B.z - A.z) = F64.finite t l := hd
  obtain ⟨h12, h3⟩ := F64.add_finite _ _ t l hd1
  obtain ⟨s, k, e⟩ := (F64.isFinite_iff _).mp h12
  obtain ⟨h1, h2⟩ := F64.add_finite _ _ s k e
  obtain ⟨a1, f1⟩ := F64.sub_of_square_finite _ _ h1
  obtain ⟨a2, f2⟩ := F64.sub_of_square_finite _ _ h2
  obtain ⟨a3, f3⟩ := F64.sub_of_square_finite _ _ h3
  exact ⟨⟨a1, a2, a3⟩, ⟨f1, f2, f3⟩⟩

/-- In the plane, on machine numbers, a divisor that is finite and not a zero gives a
zero at `P = A` and `1` at `P = B`. -/
theorem segmentParam2_ends (A B : Vec2 F64) (t : Bool) (l : Nat) (hl : l ≠ 0)
    (hd : PointAlgebra.dot (PointAlgebra.sub B A : Vec2 F64) (PointAlgebra.sub B A)
      = F64.finite t l) :
    (∃ u, segmentParam2 A B A = F64.finite u 0) ∧
      segmentParam2 A B B = F64.finite false F64.one := by
  obtain ⟨hA, hBA⟩ := divisor_finite2 A B t l hd
  obtain ⟨u, hu⟩ := c1_degenerate2 B A hA hBA
  constructor
  · refine ⟨xor u t, ?_⟩
    simp only [segmentParam2, hd, hu]
    exact F64.zero_div_finite u t l hl
  · simp only [segmentParam2, hd]
    exact F64.div_self_finite t l hl

/-- In space, on machine numbers, a divisor that is finite and not a zero gives a zero
at `P = A` and `1` at `P = B`. -/
theorem segmentParam3_ends (A B : Vec3 F64) (t : Bool) (l : Nat) (hl : l ≠ 0)
    (hd : PointAlgebra.dot (PointAlgebra.sub B A : Vec3 F64) (PointAlgebra.sub B A)
      = F64.finite t l) :
    (∃ u, segmentParam3 A B A = F64.finite u 0) ∧
      segmentParam3 A B B = F64.finite false F64.one := by
  obtain ⟨hA, hBA⟩ := divisor_finite3 A B t l hd
  obtain ⟨u, hu⟩ := c1_degenerate3 B A hA hBA
  constructor
  · refine ⟨xor u t, ?_⟩
    simp only [segmentParam3, hd, hu]
    exact F64.zero_div_finite u t l hl
  · simp only [segmentParam3, hd]
    exact F64.div_self_finite t l hl

end Machine

end GeomUtils

/-! ## The distance to a segment, the barycentric coordinates, the segment parameter -/

namespace GeomUtils

/-- C3, as the claim has it, fails on machine numbers: for `A = (0,0)` and
`B = (2^600,0)` the two dot products of `segmentParam(A,B,B)` are infinite and the
machine returns `NaN`, not `1`; for `B = (2^-600,0)` the divisor of `segmentParam(A,B,A)`
is `0` and the machine returns `NaN`, not `0`. -/
theorem segmentParam_eq_counterexample :
    ((⟨F64.lit false 0 1, F64.lit false 0 1⟩ : Vec2 F64)
        ≠ ⟨F64.lit false (1 <<< 600) 1, F64.lit false 0 1⟩ ∧
      Machine.segmentParam2 ⟨F64.lit false 0 1, F64.lit false 0 1⟩
          ⟨F64.lit false (1 <<< 600) 1, F64.lit false 0 1⟩
          ⟨F64.lit false (1 <<< 600) 1, F64.lit false 0 1⟩ = F64.nan ∧
      F64.nan ≠ F64.lit false 1 1) ∧
    ((⟨F64.lit false 0 1, F64.lit false 0 1⟩ : Vec2 F64)
        ≠ ⟨F64.lit false 1 (1 <<< 600), F64.lit false 0 1⟩ ∧
      Machine.segmentParam2 ⟨F64.lit false 0 1, F64.lit false 0 1⟩
          ⟨F64.lit false 1 (1 <<< 600), F64.lit false 0 1⟩
          ⟨F64.lit false 0 1, F64.lit false 0 1⟩ = F64.nan ∧
      F64.nan ≠ F64.lit false 0 1) := by
  decide

/-- C3: in exact arithmetic, for `A ≠ B`, both overloads of `segmentParam(A,B,P)` return
`((P-A)·(B-A)) / ((B-A)·(B-A))`; `segmentParam(A,B,A)` is `0` and `segmentParam(A,B,B)`
is `1`.  On machine numbers, where the computed divisor `(B-A)·(B-A)` is finite and not
a zero, `segmentParam(A,B,A)` is a zero and `segmentParam(A,B,B)` is `1`. -/
theorem segmentParam_eq {K : Type} [LinearOrderedField K] :
    (∀ A B P : Vec2 K, A ≠ B →
      segmentParam2 A B P = some
        (((P.x - A.x) * (B.x - A.x) + (P.y - A.y) * (B.y - A.y))
          / ((B.x - A.x) * (B.x - A.x) + (B.y - A.y) * (B.y - A.y))) ∧
      segmentParam2 A B A = some 0 ∧ segmentParam2 A B B = some 1) ∧
    (∀ A B P : Vec3 K, A ≠ B →
      segmentParam3 A B P = some
        (((P.x - A.x) * (B.x - A.x) + (P.y - A.y) * (B.y - A.y) + (P.z - A.z) * (B.z - A.z))
          / ((B.x - A.x) * (B.x - A.x) + (B.y - A.y) * (B.y - A.y)
              + (B.z - A.z) * (B.z - A.z))) ∧
      segmentParam3 A B A = some 0 ∧ segmentParam3 A B B = some 1) ∧
    (∀ (A B : Vec2 F64) (t : Bool) (l : Nat), l ≠ 0 →
      PointAlgebra.dot (PointAlgebra.sub B A : Vec2 F64) (PointAlgebra.sub B A)
        = F64.finite t l →
      (∃ u, Machine.segmentParam2 A B A = F64.finite u 0) ∧
        Machine.segmentParam2 A B B = F64.finite false F64.one) ∧
    (∀ (A B : Vec3 F64) (t : Bool) (l : Nat), l ≠ 0 →
      PointAlgebra.dot (PointAlgebra.sub B A : Vec3 F64) (PointAlgebra.sub B A)
        = F64.finite t l →
      (∃ u, Machine.segmentParam3 A B A = F64.finite u 0) ∧
        Machine.segmentParam3 A B B = F64.finite false F64.one) := by
  refine ⟨?_, ?_, ?_, ?_⟩
  · intro A B P hAB
    have hne : Vec2.dot (Vec2.sub B A) (Vec2.sub B A) ≠ 0 :=
      fun h => hAB ((Vec2.divisor2_eq_zero A B).mp h)
    refine ⟨?_, ?_, ?_⟩
    · simp only [segmentParam2, realDiv, if_neg hne]
      simp only [Vec2.dot, Vec2.sub]
    · simp only [segmentParam2, realDiv, if_neg hne]
      simp [Vec2.dot, Vec2.sub]
    · simp only [segmentParam2, realDiv, if_neg hne]
      rw [div_self hne]
  · intro A B P hAB
    have hne : Vec3.dot (Vec3.sub B A) (Vec3.sub B A) ≠ 0 :=
      fun h => hAB ((Vec3.divisor3_eq_zero A B).mp h)
    refine ⟨?_, ?_, ?_⟩
    · simp only [segmentParam3, realDiv, if_neg hne]
      simp only [Vec3.dot, Vec3.sub]
    · simp only [segmentParam3, realDiv, if_neg hne]
      simp [Vec3.dot, Vec3.sub]
    · simp only [segmentParam3, realDiv, if_neg hne]
      rw [div_self hne]
  · intro A B t l hl hd
    exact Machine.segmentParam2_ends A B t l hl hd
  · intro A B t l hl hd
    exact Machine.segmentParam3_ends A B t l hl hd

/-- C3, at `A = (0,0)`, `B = (2,0)`, `P = (1,5)` and at `A = (0,0,0)`, `B = (0,2,0)`,
`P = (3,1,4)`: the parameter is `1/2`; on machine numbers, at `A = (0,0)`, `B = (2,0)`,
the divisor is `4` and `segmentParam(A,B,B)` is `1`; at `A = (0,0,0)`, `B = (0,2,0)`
likewise. -/
theorem segmentParam_eq_witness :
    ((⟨0, 0⟩ : Vec2 ℚ) ≠ ⟨2, 0⟩ ∧ segmentParam2 (⟨0, 0⟩ : Vec2 ℚ) ⟨2, 0⟩ ⟨1, 5⟩ = some (1 / 2)) ∧
    ((⟨0, 0, 0⟩ : Vec3 ℚ) ≠ ⟨0, 2, 0⟩ ∧
      segmentParam3 (⟨0, 0, 0⟩ : Vec3 ℚ) ⟨0, 2, 0⟩ ⟨3, 1, 4⟩ = some (1 / 2)) ∧
    (PointAlgebra.dot
        (PointAlgebra.sub (⟨F64.lit false 2 1, F64.lit false 0 1⟩ : Vec2 F64)
          ⟨F64.lit false 0 1, F64.lit false 0 1⟩ : Vec2 F64)
        (PointAlgebra.sub (⟨F64.lit false 2 1, F64.lit false 0 1⟩ : Vec2 F64)
          ⟨F64.lit false 0 1, F64.lit false 0 1⟩) = F64.lit false 4 1 ∧
      Machine.segmentParam2 ⟨F64.lit false 0 1, F64.lit false 0 1⟩
          ⟨F64.lit false 2 1, F64.lit false 0 1⟩ ⟨F64.lit false 2 1, F64.lit false 0 1⟩
        = F64.lit false 1 1) ∧
    (PointAlgebra.dot
        (PointAlgebra.sub (⟨F64.lit false 0 1, F64.lit false 2 1, F64.lit false 0 1⟩ : Vec3 F64)
          ⟨F64.lit false 0 1, F64.lit false 0 1, F64.lit false 0 1⟩ : Vec3 F64)
        (PointAlgebra.sub (⟨F64.lit false 0 1, F64.lit false 2 1, F64.lit false 0 1⟩ : Vec3 F64)
          ⟨F64.lit false 0 1, F64.lit false 0 1, F64.lit false 0 1⟩) = F64.lit false 4 1 ∧
      Machine.segmentParam3 ⟨F64.lit false 0 1, F64.lit false 0 1, F64.lit false 0 1⟩
          ⟨F64.lit false 0 1, F64.lit false 2 1, F64.lit false 0 1⟩
          ⟨F64.lit false 0 1, F64.lit false 2 1, F64.lit false 0 1⟩
        = F64.lit false 1 1) :=
  ⟨⟨by decide,
      (((@segmentParam_eq ℚ _).1 ⟨0, 0⟩ ⟨2, 0⟩ ⟨1, 5⟩ (by decide)).1).trans
        (congrArg some (by norm_num))⟩,
    ⟨by decide,
      (((@segmentParam_eq ℚ _).2.1 ⟨0, 0, 0⟩ ⟨0, 2, 0⟩ ⟨3, 1, 4⟩ (by decide)).1).trans
        (congrArg some (by norm_num))⟩,
    ⟨by decide,
      (((@segmentParam_eq ℚ _).2.2.1 ⟨F64.lit false 0 1, F64.lit false 0 1⟩
        ⟨F64.lit false 2 1, F64.lit false 0 1⟩ false (1 <<< 1076) (by decide)
        (by decide)).2).trans (by decide)⟩,
    ⟨by decide,
      (((@segmentParam_eq ℚ _).2.2.2 ⟨F64.lit false 0 1, F64.lit false 0 1, F64.lit false 0 1⟩
        ⟨F64.lit false 0 1, F64.lit false 2 1, F64.lit false 0 1⟩ false (1 <<< 1076)
        (by decide) (by decide)).2).trans (by decide)⟩⟩

/-- C4: for a triangle `A`, `B`, `C` that is not degenerate (its normal
`(B-A) ^ (C-A)` is not zero) and a point `P` of its plane, `ComputeBarycentricCoords`
returns weights from which `Bary2Point` rebuilds `P` exactly. -/
theorem Bary2Point_ComputeBarycentricCoords {K : Type} [LinearOrderedField K]
    (A B C P : Vec3 K)
    (hABC : Vec3.cross (Vec3.sub B A) (Vec3.sub C A) ≠ ⟨0, 0, 0⟩)
    (hP : Vec3.dot (Vec3.sub P A) (Vec3.cross (Vec3.sub B A) (Vec3.sub C A)) = 0) :
    ∃ w : Vec3 K, ComputeBarycentricCoords A B C P = some w ∧ Bary2Point A B C w = P := by
  have hd : Vec3.dot (Vec3.cross (Vec3.sub B A) (Vec3.sub C A))
      (Vec3.cross (Vec3.sub B A) (Vec3.sub C A)) ≠ 0 :=
    fun h => hABC ((Vec3.dot_self_eq_zero _).mp h)
  refine ⟨_, by simp only [ComputeBarycentricCoords, realDiv, if_neg hd, Option.some_bind,
    Option.map_some']; rfl, ?_⟩
  obtain ⟨ax, ay, az⟩ := A
  obtain ⟨bx, bY, bz⟩ := B
  obtain ⟨cx, cy, cz⟩ := C
  obtain ⟨px, py, pz⟩ := P
  simp only [Vec3.dot, Vec3.sub, Vec3.cross] at hd hP
  simp only [Bary2Point, Vec3.add, Vec3.muls, Vec3.dot, Vec3.sub, Vec3.cross, Vec3.mk.injEq]
  refine ⟨?_, ?_, ?_⟩
  · field_simp
    linear_combination
      (-((bY - ay) * (cz - az) - (bz - az) * (cy - ay))) * hP
  · field_simp
    linear_combination
      (-((bz - az) * (cx - ax) - (bx - ax) * (cz - az))) * hP
  · field_simp
    linear_combination
      (-((bx - ax) * (cy - ay) - (bY - ay) * (cx - ax))) * hP

/-- C4, on the triangle `(0,0,0)`, `(1,0,0)`, `(0,1,0)` and the point `(2,3,0)` of its
plane, outside the triangle. -/
theorem Bary2Point_ComputeBarycentricCoords_witness :
    (Vec3.cross (Vec3.sub (⟨1, 0, 0⟩ : Vec3 ℚ) ⟨0, 0, 0⟩) (Vec3.sub ⟨0, 1, 0⟩ ⟨0, 0, 0⟩)
        ≠ ⟨0, 0, 0⟩ ∧
      Vec3.dot (Vec3.sub (⟨2, 3, 0⟩ : Vec3 ℚ) ⟨0, 0, 0⟩)
        (Vec3.cross (Vec3.sub ⟨1, 0, 0⟩ ⟨0, 0, 0⟩) (Vec3.sub ⟨0, 1, 0⟩ ⟨0, 0, 0⟩)) = 0) ∧
    ∃ w : Vec3 ℚ,
      ComputeBarycentricCoords (⟨0, 0, 0⟩ : Vec3 ℚ) ⟨1, 0, 0⟩ ⟨0, 1, 0⟩ ⟨2, 3, 0⟩ = some w ∧
        Bary2Point (⟨0, 0, 0⟩ : Vec3 ℚ) ⟨1, 0, 0⟩ ⟨0, 1, 0⟩ w = ⟨2, 3, 0⟩ :=
  ⟨⟨by norm_num [Vec3.cross, Vec3.sub], by norm_num [Vec3.dot, Vec3.cross, Vec3.sub]⟩,
    Bary2Point_ComputeBarycentricCoords ⟨0, 0, 0⟩ ⟨1, 0, 0⟩ ⟨0, 1, 0⟩ ⟨2, 3, 0⟩
      (by norm_num [Vec3.cross, Vec3.sub]) (by norm_num [Vec3.dot, Vec3.cross, Vec3.sub])⟩

/-- C5: `Bary2Point(A,B,C,(α,β,γ))` is `αA + βB + γC`, coordinate by coordinate; the
weights `(1,0,0)`, `(0,1,0)`, `(0,0,1)` give `A`, `B`, `C`. -/
theorem Bary2Point_eq {K : Type} [LinearOrderedField K] (A B C : Vec3 K) :
    (∀ a b c : K, Bary2Point A B C ⟨a, b, c⟩ =
      ⟨a * A.x + b * B.x + c * C.x, a * A.y + b * B.y + c * C.y,
        a * A.z + b * B.z + c * C.z⟩) ∧
    Bary2Point A B C ⟨1, 0, 0⟩ = A ∧
    Bary2Point A B C ⟨0, 1, 0⟩ = B ∧
    Bary2Point A B C ⟨0, 0, 1⟩ = C := by
  refine ⟨?_, ?_, ?_, ?_⟩
  · intro a b c
    simp only [Bary2Point, Vec3.add, Vec3.muls, Vec3.mk.injEq]
    exact ⟨by ring, by ring, by ring⟩
  · simp [Bary2Point, Vec3.add, Vec3.muls]
  · simp [Bary2Point, Vec3.add, Vec3.muls]
  · simp [Bary2Point, Vec3.add, Vec3.muls]

end GeomUtils

/-! ## The vertex buffer: `BindVBO` and `UpdateData` -/

namespace OpenSubdiv

namespace OsdCpuGLVertexBuffer

/-- C6: what `BindVBO` does on a buffer of one element and `2^29` vertices in the state
`Create` leaves it in, with the flag up.  With `sizeof(real) = 4` the `int size` of
line 84 is `-2^31`: `glBufferData` refuses it, the buffer object has no data, and the
flag is lowered all the same.  With `sizeof(real) = 8` the `int size` is `0`: the data
of the buffer object is empty.  In neither case is the CPU buffer uploaded. -/
theorem BindVBO_two_gigabytes :
    Allocated (⟨1, 536870912, 1, List.replicate 536870912 0, true⟩ :
      OsdCpuGLVertexBuffer Nat) ∧
    BindVBO 4 (⟨1, 536870912, 1, List.replicate 536870912 0, true⟩ :
        OsdCpuGLVertexBuffer Nat) ⟨fun _ => none, 0, 1⟩
      = (1, ⟨1, 536870912, 1, List.replicate 536870912 0, false⟩,
          ⟨fun _ => none, 0, 1⟩) ∧
    BindVBO 8 (⟨1, 536870912, 1, List.replicate 536870912 0, true⟩ :
        OsdCpuGLVertexBuffer Nat) ⟨fun _ => none, 0, 1⟩
      = (1, ⟨1, 536870912, 1, List.replicate 536870912 0, false⟩,
          ⟨Function.update (fun _ => none) 1 (some []), 0, 1⟩) := by
  refine ⟨⟨by decide, ?_⟩, ?_, ?_⟩
  · simp only [List.length_replicate]
    decide
  · have hsize : toInt (toSizeT (toSizeT (toInt (1 * 536870912)) * ((4 : ℕ+) : Nat)))
        = -2147483648 := by decide
    simp only [BindVBO, Bool.not_true, Bool.false_eq_true, if_false, GetNumElements,
      GetNumVertices, hsize, glBindBuffer, glBufferData]
    rw [if_pos (Or.inl (by decide))]
  · have hsize : toInt (toSizeT (toSizeT (toInt (1 * 536870912)) * ((8 : ℕ+) : Nat)))
        = 0 := by decide
    simp only [BindVBO, Bool.not_true, Bool.false_eq_true, if_false, GetNumElements,
      GetNumVertices, hsize, glBindBuffer, glBufferData]
    rw [if_neg (by decide)]
    simp only [Int.zero_ediv, Int.toNat_zero, List.take_zero, List.map_nil]

end OsdCpuGLVertexBuffer

end OpenSubdiv

/-! ## The two instances of `distPointSegment`, its sign, the divisor of `segmentParam` -/

namespace GeomUtils

/-- C8: for all points `P`, `A`, `B` of the plane, the instance of `distPointSegment`
for `Vec2r` returns what the instance for `Vec3r` returns on `(Px,Py,0)`, `(Ax,Ay,0)`,
`(Bx,By,0)`. -/
theorem distPointSegment_2d_eq_3d {K : Type} [LinearOrderedField K] (sqrt : K → K)
    (P A B : Vec2 K) :
    distPointSegment sqrt P A B
      = distPointSegment sqrt (⟨P.x, P.y, 0⟩ : Vec3 K) ⟨A.x, A.y, 0⟩ ⟨B.x, B.y, 0⟩ :=
  (distPointSegment_embed sqrt P A B).symm

/-- C9, as the claim has it, fails on machine numbers: for the finite points
`P = (2^1023,0)` and `A = B = (-2^1023,0)` the difference `P - A` is infinite, `c1` is
`NaN`, and the machine returns `NaN`, which is not `≥ 0`. -/
theorem distPointSegment_nonneg_counterexample :
    Machine.distPointSegment (⟨F64.lit false (1 <<< 1023) 1, F64.lit false 0 1⟩ : Vec2 F64)
        ⟨F64.lit true (1 <<< 1023) 1, F64.lit false 0 1⟩
        ⟨F64.lit true (1 <<< 1023) 1, F64.lit false 0 1⟩ = F64.nan ∧
    F64.le (F64.lit false 0 1) F64.nan = false := by
  decide

/-- C9: on every point type and for all points `P`, `A`, `B`, the segment `A = B`
included, `distPointSegment(P,A,B)` is never below zero: on machine numbers it is `NaN`
or `≥ 0`, and in exact arithmetic it is a value `≥ 0`. -/
theorem distPointSegment_nonneg :
    (∀ (T : Type) [PointAlgebra F64 T] (P A B : T),
      Machine.distPointSegment P A B = F64.nan ∨
        F64.le (F64.finite false 0) (Machine.distPointSegment P A B) = true) ∧
    (∀ P A B : Vec2 ℝ, ∃ d : ℝ, distPointSegment Real.sqrt P A B = some d ∧ 0 ≤ d) ∧
    (∀ P A B : Vec3 ℝ, ∃ d : ℝ, distPointSegment Real.sqrt P A B = some d ∧ 0 ≤ d) := by
  refine ⟨?_, ?_, ?_⟩
  · intro T _ P A B
    simp only [Machine.distPointSegment, Machine.norm]
    split_ifs <;> exact F64.sqrt_nan_or_nonneg _
  · intro P A B
    refine ⟨_, distPointSegment_eq_some Real.sqrt P A B, ?_⟩
    split_ifs <;> exact Real.sqrt_nonneg _
  · intro P A B
    refine ⟨_, distPointSegment_eq_some Real.sqrt P A B, ?_⟩
    split_ifs <;> exact Real.sqrt_nonneg _

/-- C10, as the claim has it, fails on machine numbers: for `A = (0,0)` and
`B = (2^-600,0)`, two points that differ, the divisor `(B-A)·(B-A)` is `0` and
`segmentParam(A,B,A)` is `NaN`. -/
theorem segmentParam_undefined_iff_counterexample :
    (⟨F64.lit false 0 1, F64.lit false 0 1⟩ : Vec2 F64)
      ≠ ⟨F64.lit false 1 (1 <<< 600), F64.lit false 0 1⟩ ∧
    PointAlgebra.dot
        (PointAlgebra.sub (⟨F64.lit false 1 (1 <<< 600), F64.lit false 0 1⟩ : Vec2 F64)
          ⟨F64.lit false 0 1, F64.lit false 0 1⟩)
        (PointAlgebra.sub (⟨F64.lit false 1 (1 <<< 600), F64.lit false 0 1⟩ : Vec2 F64)
          ⟨F64.lit false 0 1, F64.lit false 0 1⟩)
      = F64.finite false 0 ∧
    Machine.segmentParam2 ⟨F64.lit false 0 1, F64.lit false 0 1⟩
        ⟨F64.lit false 1 (1 <<< 600), F64.lit false 0 1⟩
        ⟨F64.lit false 0 1, F64.lit false 0 1⟩ = F64.nan := by
  decide

/-- C10: `segmentParam` does not guard against a divisor `(B-A)·(B-A)` that is zero.
On machine numbers, for both overloads, a divisor that is a zero gives `NaN` or an
infinity, whatever `A`, `B` and `P`.  In exact arithmetic the divisor is zero exactly
when `A = B`; for `A = B` and every `P` the division is a division by zero and has no
result; for `A ≠ B` it has a result for every `P`. -/
theorem segmentParam_undefined_iff {K : Type} [LinearOrderedField K] :
    ((∀ (A B P : Vec2 F64) (s : Bool),
        PointAlgebra.dot (PointAlgebra.sub B A) (PointAlgebra.sub B A) = F64.finite s 0 →
        Machine.segmentParam2 A B P = F64.nan ∨
          ∃ t, Machine.segmentParam2 A B P = F64.inf t) ∧
      (∀ (A B P : Vec3 F64) (s : Bool),
        PointAlgebra.dot (PointAlgebra.sub B A) (PointAlgebra.sub B A) = F64.finite s 0 →
        Machine.segmentParam3 A B P = F64.nan ∨
          ∃ t, Machine.segmentParam3 A B P = F64.inf t)) ∧
    ((∀ A B : Vec2 K, Vec2.dot (Vec2.sub B A) (Vec2.sub B A) = 0 ↔ A = B) ∧
      (∀ A P : Vec2 K, segmentParam2 A A P = none) ∧
      (∀ A B P : Vec2 K, A ≠ B → (segmentParam2 A B P).isSome = true)) ∧
    ((∀ A B : Vec3 K, Vec3.dot (Vec3.sub B A) (Vec3.sub B A) = 0 ↔ A = B) ∧
      (∀ A P : Vec3 K, segmentParam3 A A P = none) ∧
      (∀ A B P : Vec3 K, A ≠ B → (segmentParam3 A B P).isSome = true)) := by
  refine ⟨⟨?_, ?_⟩, ⟨Vec2.divisor2_eq_zero, ?_, ?_⟩, ⟨Vec3.divisor3_eq_zero, ?_, ?_⟩⟩
  · intro A B P s h
    simp only [Machine.segmentParam2, h]
    exact F64.div_zero _ s
  · intro A B P s h
    simp only [Machine.segmentParam3, h]
    exact F64.div_zero _ s
  · intro A P
    simp only [segmentParam2, realDiv, if_pos ((Vec2.divisor2_eq_zero A A).mpr rfl)]
  · intro A B P hAB
    have hne : Vec2.dot (Vec2.sub B A) (Vec2.sub B A) ≠ 0 :=
      fun h => hAB ((Vec2.divisor2_eq_zero A B).mp h)
    simp only [segmentParam2, realDiv, if_neg hne, Option.isSome_some]
  · intro A P
    simp only [segmentParam3, realDiv, if_pos ((Vec3.divisor3_eq_zero A A).mpr rfl)]
  · intro A B P hAB
    have hne : Vec3.dot (Vec3.sub B A) (Vec3.sub B A) ≠ 0 :=
      fun h => hAB ((Vec3.divisor3_eq_zero A B).mp h)
    simp only [segmentParam3, realDiv, if_neg hne, Option.isSome_some]

/-- C10, on machine numbers at `A = (0,0)`, `B = (2^-600,0)`, `P = (1,5)` and at
`A = (0,0,0)`, `B = (0,2^-600,0)`, `P = (3,1,4)`, where the divisor is `0`; in exact
arithmetic at `A = (0,0)`, `B = (2,0)`, `P = (1,5)` and at `A = (0,0,0)`, `B = (0,2,0)`,
`P = (3,1,4)`, where the segment is not degenerate and `segmentParam` has a result. -/
theorem segmentParam_undefined_iff_witness :
    ((PointAlgebra.dot
          (PointAlgebra.sub (⟨F64.lit false 1 (1 <<< 600), F64.lit false 0 1⟩ : Vec2 F64)
            ⟨F64.lit false 0 1, F64.lit false 0 1⟩)
          (PointAlgebra.sub (⟨F64.lit false 1 (1 <<< 600), F64.lit false 0 1⟩ : Vec2 F64)
            ⟨F64.lit false 0 1, F64.lit false 0 1⟩)
        = F64.finite false 0 ∧
      (Machine.segmentParam2 ⟨F64.lit false 0 1, F64.lit false 0 1⟩
          ⟨F64.lit false 1 (1 <<< 600), F64.lit false 0 1⟩
          ⟨F64.lit false 1 1, F64.lit false 5 1⟩ = F64.nan ∨
        ∃ t, Machine.segmentParam2 ⟨F64.lit false 0 1, F64.lit false 0 1⟩
          ⟨F64.lit false 1 (1 <<< 600), F64.lit false 0 1⟩
          ⟨F64.lit false 1 1, F64.lit false 5 1⟩ = F64.inf t)) ∧
      (PointAlgebra.dot
          (PointAlgebra.sub
            (⟨F64.lit false 0 1, F64.lit false 1 (1 <<< 600), F64.lit false 0 1⟩ : Vec3 F64)
            ⟨F64.lit false 0 1, F64.lit false 0 1, F64.lit false 0 1⟩)
          (PointAlgebra.sub
            (⟨F64.lit false 0 1, F64.lit false 1 (1 <<< 600), F64.lit false 0 1⟩ : Vec3 F64)
            ⟨F64.lit false 0 1, F64.lit false 0 1, F64.lit false 0 1⟩)
        = F64.finite false 0 ∧
      (Machine.segmentParam3 ⟨F64.lit false 0 1, F64.lit false 0 1, F64.lit false 0 1⟩
          ⟨F64.lit false 0 1, F64.lit false 1 (1 <<< 600), F64.lit false 0 1⟩
          ⟨F64.lit false 3 1, F64.lit false 1 1, F64.lit false 4 1⟩ = F64.nan ∨
        ∃ t, Machine.segmentParam3 ⟨F64.lit false 0 1, F64.lit false 0 1, F64.lit false 0 1⟩
          ⟨F64.lit false 0 1, F64.lit false 1 (1 <<< 600), F64.lit false 0 1⟩
          ⟨F64.lit false 3 1, F64.lit false 1 1, F64.lit false 4 1⟩ = F64.inf t))) ∧
    ((⟨0, 0⟩ : Vec2 ℚ) ≠ ⟨2, 0⟩ ∧
      (segmentParam2 (⟨0, 0⟩ : Vec2 ℚ) ⟨2, 0⟩ ⟨1, 5⟩).isSome = true) ∧
    ((⟨0, 0, 0⟩ : Vec3 ℚ) ≠ ⟨0, 2, 0⟩ ∧
      (segmentParam3 (⟨0, 0, 0⟩ : Vec3 ℚ) ⟨0, 2, 0⟩ ⟨3, 1, 4⟩).isSome = true) :=
  ⟨⟨⟨by decide, (@segmentParam_undefined_iff ℚ _).1.1 _ _ _ false (by decide)⟩,
      ⟨by decide, (@segmentParam_undefined_iff ℚ _).1.2 _ _ _ false (by decide)⟩⟩,
    ⟨by decide, (@segmentParam_undefined_iff ℚ _).2.1.2.2 ⟨0, 0⟩ ⟨2, 0⟩ ⟨1, 5⟩ (by decide)⟩,
    ⟨by decide,
      (@segmentParam_undefined_iff ℚ _).2.2.2.2 ⟨0, 0, 0⟩ ⟨0, 2, 0⟩ ⟨3, 1, 4⟩ (by decide)⟩⟩

end GeomUtils

/-! ## Lemmas on the calls of a client of the vertex buffer -/

namespace OpenSubdiv

namespace OsdCpuGLVertexBuffer

section CallLemmas
variable {α : Type}

/-- A `memcpy` that is defined leaves a block as long as the block it wrote to. -/
theorem memcpy_length (sizeofReal : ℕ+) (dst src block : List α) (off n : Int)
    (h : memcpy sizeofReal dst off src n = some block) : block.length = dst.length := by
  simp only [memcpy] at h
  split_ifs at h with hc
  obtain ⟨h0, hn, hend, hsrc⟩ := hc
  have hcnt : 0 ≤ n / ((sizeofReal : Nat) : Int) :=
    Int.ediv_nonneg hn (Int.ofNat_nonneg _)
  simp only [Option.some.injEq] at h
  subst h
  apply splice_length
  · have ha := Int.toNat_of_nonneg h0
    have hb := Int.toNat_of_nonneg hcnt
    omega
  · have hb := Int.toNat_of_nonneg hcnt
    omega

/-- With the flag up, on a buffer that satisfies `Allocated` and whose byte size is
within the range of `int`, `BindVBO` stores the whole CPU buffer as the data of the
buffer object and lowers the flag. -/
theorem BindVBO_upload (sizeofReal : ℕ+) (self : OsdCpuGLVertexBuffer α) (gl : GLContext α)
    (h : self._dataDirty = true) (hA : Allocated self) (hF : FitsInt sizeofReal self) :
    BindVBO sizeofReal self gl =
      (self._vbo,
        { self with _dataDirty := false },
        { gl with
          dataStore :=
            Function.update gl.dataStore self._vbo (some (self._cpuBuffer.map some))
          arrayBuffer := 0 }) := by
  obtain ⟨hvbo, hlen⟩ := hA
  have h1 : (0 : Int) ≤ self._numElements * self._numVertices := by
    rw [← hlen]
    exact Int.ofNat_nonneg _
  have hconv := size_of_range sizeofReal (self._numElements * self._numVertices) h1 hF
  have hsize : (self._numElements * self._numVertices * ((sizeofReal : Nat) : Int)
      / ((sizeofReal : Nat) : Int)).toNat = self._cpuBuffer.length := by
    rw [bytes_div_sizeof, ← hlen, Int.toNat_ofNat]
  have hnonneg : ¬ (self._numElements * self._numVertices * ((sizeofReal : Nat) : Int) < 0
      ∨ self._vbo = 0) := by
    rintro (h0 | h0)
    · have h2 : (0 : Int) ≤ ((sizeofReal : Nat) : Int) := Int.ofNat_nonneg _
      exact absurd (mul_nonneg h1 h2) (not_le.mpr h0)
    · exact hvbo h0
  simp only [BindVBO, h, Bool.not_true, Bool.false_eq_true, if_false, glBindBuffer,
    glBufferData, GetNumElements, GetNumVertices, hconv, if_neg hnonneg, hsize,
    List.take_length]

/-- A call keeps the invariant `Allocated`, a byte size within the range of `int` and
the dirty-flag discipline `InSync`. -/
theorem step_invariant (sizeofReal : ℕ+) (c : Call α)
    (st st1 : OsdCpuGLVertexBuffer α × GLContext α)
    (hA : Allocated st.1) (hF : FitsInt sizeofReal st.1) (hS : InSync st)
    (h : step sizeofReal c st = some st1) :
    Allocated st1.1 ∧ FitsInt sizeofReal st1.1 ∧ InSync st1 := by
  obtain ⟨self, gl⟩ := st
  cases c with
  | updateData src startVertex numVertices =>
    simp only [step, UpdateData, Option.map_eq_some', Option.map_map] at h
    obtain ⟨block, hblock, hst⟩ := h
    subst hst
    have hl := memcpy_length sizeofReal _ _ _ _ _ hblock
    refine ⟨⟨hA.1, ?_⟩, hF, ?_⟩
    · show ((block.length : Nat) : Int) = _
      rw [hl]
      exact hA.2
    · intro hd
      simp at hd
  | bindCpuBuffer written =>
    simp only [step, BindCpuBuffer] at h
    split_ifs at h with hlen
    simp only [Option.some.injEq] at h
    subst h
    refine ⟨⟨hA.1, ?_⟩, hF, ?_⟩
    · show ((written.length : Nat) : Int) = _
      rw [hlen]
      exact hA.2
    · intro hd
      simp at hd
  | bindVBO =>
    simp only [step, Option.some.injEq] at h
    subst h
    cases hd : self._dataDirty with
    | false =>
      have e : BindVBO sizeofReal self gl = (self._vbo, self, gl) := by
        simp [BindVBO, hd]
      rw [e]
      exact ⟨hA, hF, hS⟩
    | true =>
      rw [BindVBO_upload sizeofReal self gl hd hA hF]
      refine ⟨hA, hF, ?_⟩
      intro _
      simp [Function.update_same]

/-- A sequence of calls keeps the invariant `Allocated`, a byte size within the range of
`int` and the dirty-flag discipline `InSync`. -/
theorem run_invariant (sizeofReal : ℕ+) (cs : List (Call α)) :
    ∀ st st1 : OsdCpuGLVertexBuffer α × GLContext α,
      Allocated st.1 → FitsInt sizeofReal st.1 → InSync st →
      run sizeofReal cs st = some st1 →
      Allocated st1.1 ∧ FitsInt sizeofReal st1.1 ∧ InSync st1 := by
  induction cs with
  | nil =>
    intro st st1 hA hF hS h
    simp only [run, Option.some.injEq] at h
    subst h
    exact ⟨hA, hF, hS⟩
  | cons c rest ih =>
    intro st st1 hA hF hS h
    simp only [run, Option.bind_eq_some] at h
    obtain ⟨st2, h2, h3⟩ := h
    obtain ⟨hA2, hF2, hS2⟩ := step_invariant sizeofReal c st st2 hA hF hS h2
    exact ih st2 st1 hA2 hF2 hS2 h3

/-- The state that `allocate` leaves has the flag up: the dirty-flag discipline holds. -/
theorem allocate_InSync (sizeofReal : ℕ+) (self : OsdCpuGLVertexBuffer α) (gl : GLContext α)
    (fresh : Nat → Option (Nat → α)) (r : Bool × OsdCpuGLVertexBuffer α × GLContext α)
    (h : allocate sizeofReal self gl fresh = some r) :
    InSync (r.2.1, r.2.2) := by
  intro hd
  have hr := (allocate_result sizeofReal self gl fresh r h).2.2.2.2.2.2
  rw [hr] at hd
  exact absurd hd (by decide)

/-- A negative size is an OpenGL error: `glBufferData` changes nothing. -/
theorem glBufferData_negative (sizeofReal : ℕ+) (gl : GLContext α) (size : Int)
    (data : Option (List α)) (h : size < 0) : glBufferData sizeofReal gl size data = gl := by
  simp [glBufferData, h]

/-- What `allocate` returns where `new real[n]` does not throw. -/
theorem allocate_eq (sizeofReal : ℕ+) (self : OsdCpuGLVertexBuffer α)
    (gl : GLContext α) (fresh : Nat → Option (Nat → α)) (values : Nat → α)
    (hn : ¬ toInt (self._numElements * self._numVertices) < 0)
    (hf : fresh (toInt (self._numElements * self._numVertices)).toNat = some values) :
    allocate sizeofReal self gl fresh =
      some (true,
        { self with
          _cpuBuffer :=
            (List.range (toInt (self._numElements * self._numVertices)).toNat).map values
          _dataDirty := true
          _vbo := gl.lastName + 1 },
        glBindBuffer
          (glBufferData sizeofReal
            (glBindBuffer { gl with lastName := gl.lastName + 1 } (gl.lastName + 1))
            (toInt (toSizeT (toSizeT (toInt (self._numElements * self._numVertices))
              * ((sizeofReal : Nat) : Int)))) none) 0) := by
  simp only [allocate, GetNumElements, GetNumVertices, if_neg hn, hf, glGenBuffers]

/-- What `BindVBO` returns with the flag up. -/
theorem BindVBO_dirty (sizeofReal : ℕ+) (self : OsdCpuGLVertexBuffer α)
    (gl : GLContext α) (h : self._dataDirty = true) :
    BindVBO sizeofReal self gl =
      (self._vbo, { self with _dataDirty := false },
        glBindBuffer
          (glBufferData sizeofReal (glBindBuffer gl self._vbo)
            (toInt (toSizeT (toSizeT (toInt (self._numElements * self._numVertices))
              * ((sizeofReal : Nat) : Int)))) (some self._cpuBuffer)) 0) := by
  simp only [BindVBO, h, Bool.not_true, Bool.false_eq_true, if_false, GetNumElements,
    GetNumVertices]

/-- The dirty-flag discipline within the range of `int`: in every state that a sequence
of calls reaches from the state `allocate` leaves, for a byte size
`numElements × numVertices × sizeof(real)` that is not negative and below `2^31`, with
the flag down the data of the buffer object are the values of the CPU buffer. -/
theorem run_InSync_of_range (sizeofReal : ℕ+) (self : OsdCpuGLVertexBuffer α)
    (gl : GLContext α) (fresh : Nat → Option (Nat → α))
    (r : Bool × OsdCpuGLVertexBuffer α × GLContext α)
    (cs : List (Call α)) (st : OsdCpuGLVertexBuffer α × GLContext α)
    (h0 : 0 ≤ self._numElements * self._numVertices)
    (h1 : self._numElements * self._numVertices * ((sizeofReal : Nat) : Int) < 2147483648)
    (hr : allocate sizeofReal self gl fresh = some r)
    (hst : run sizeofReal cs (r.2.1, r.2.2) = some st) :
    st.1._dataDirty = false →
      st.2.dataStore st.1._vbo = some (st.1._cpuBuffer.map some) := by
  have hs : (1 : Int) ≤ ((sizeofReal : Nat) : Int) := by
    have := sizeofReal.pos
    omega
  have hp : self._numElements * self._numVertices < 2147483648 := by nlinarith
  have hA := allocate_Allocated sizeofReal self gl fresh r hr h0 hp
  have hres := allocate_result sizeofReal self gl fresh r hr
  have hF : FitsInt sizeofReal r.2.1 := by
    unfold FitsInt
    rw [hres.2.2.1, hres.2.2.2.1]
    exact h1
  exact (run_invariant sizeofReal cs (r.2.1, r.2.2) st hA hF
    (allocate_InSync sizeofReal self gl fresh r hr) hst).2.2

end CallLemmas

end OsdCpuGLVertexBuffer

end OpenSubdiv

/-! ## The dirty-flag discipline of the vertex buffer -/

namespace OpenSubdiv

namespace OsdCpuGLVertexBuffer

/-- C11: a state that a `BindVBO` reaches from the state `allocate` leaves, on a buffer
of one element and `2^29` vertices with `sizeof(real) = 4`: the `int size` of lines 98
and 84 is `-2^31`, `glBufferData` refuses it both times, and after `BindVBO` the flag is
down while the buffer object has no data: the dirty-flag discipline `InSync` does not
hold. -/
theorem dirty_flag_two_gigabytes :
    allocate 4 (new 1 536870912 : OsdCpuGLVertexBuffer Nat) ⟨fun _ => none, 0, 0⟩
        (fun _ => some (fun _ => 0))
      = some (true, ⟨1, 536870912, 1, (List.range 536870912).map (fun _ => 0), true⟩,
          ⟨fun _ => none, 0, 1⟩) ∧
    run 4 [Call.bindVBO]
        ((⟨1, 536870912, 1, (List.range 536870912).map (fun _ => 0), true⟩ :
          OsdCpuGLVertexBuffer Nat), ⟨fun _ => none, 0, 1⟩)
      = some (⟨1, 536870912, 1, (List.range 536870912).map (fun _ => 0), false⟩,
          ⟨fun _ => none, 0, 1⟩) ∧
    ¬ InSync ((⟨1, 536870912, 1, (List.range 536870912).map (fun _ => 0), false⟩ :
      OsdCpuGLVertexBuffer Nat), (⟨fun _ => none, 0, 1⟩ : GLContext Nat)) := by
  have hB : BindVBO 4
      (⟨1, 536870912, 1, (List.range 536870912).map (fun _ => 0), true⟩ :
        OsdCpuGLVertexBuffer Nat) ⟨fun _ => none, 0, 1⟩
      = (1, ⟨1, 536870912, 1, (List.range 536870912).map (fun _ => 0), false⟩,
          ⟨fun _ => none, 0, 1⟩) := by
    have h := BindVBO_dirty 4
      (⟨1, 536870912, 1, (List.range 536870912).map (fun _ => 0), true⟩ :
        OsdCpuGLVertexBuffer Nat) ⟨fun _ => none, 0, 1⟩ rfl
    rw [glBufferData_negative _ _ _ _ (by decide)] at h
    simp only [glBindBuffer] at h
    exact h
  refine ⟨?_, ?_, ?_⟩
  · have h := allocate_eq 4 (new 1 536870912 : OsdCpuGLVertexBuffer Nat)
      ⟨fun _ => none, 0, 0⟩ (fun _ => some (fun _ => 0)) (fun _ => 0) (by decide) rfl
    have hn : toInt (1 * 536870912) = 536870912 := by decide
    have ht : Int.toNat 536870912 = 536870912 := by decide
    rw [glBufferData_negative _ _ _ _ (by decide)] at h
    simp only [new, hn, ht, glBindBuffer] at h
    exact h
  · simp only [run, step, Option.some_bind, hB]
  · intro h
    exact Option.some_ne_none _ (h rfl).symm

end OsdCpuGLVertexBuffer

end OpenSubdiv

/-! ## The division of `distPointSegment`, projections, orientation of the segment -/

namespace GeomUtils

section OrientationLemmas
variable {K : Type} [LinearOrderedField K]

end OrientationLemmas

end GeomUtils

/-! ## No division by zero, the parameter of a projection, the orientation of the segment -/

namespace GeomUtils

/-- C12, as the claim has it, fails on machine numbers: for the finite points
`P = (2^1023,0)` and `A = B = (-2^1023,0)` the number `c1` is `NaN`, neither test holds,
and the division `c1 / c2` is reached with the divisor `c2 = 0`; the machine returns
`NaN`, while `|P-A|` is infinite. -/
theorem distPointSegment_division_defined_counterexample :
    Machine.distPointSegmentDivision
        (⟨F64.lit false (1 <<< 1023) 1, F64.lit false 0 1⟩ : Vec2 F64)
        ⟨F64.lit true (1 <<< 1023) 1, F64.lit false 0 1⟩
        ⟨F64.lit true (1 <<< 1023) 1, F64.lit false 0 1⟩
      = some (F64.nan, F64.finite false 0) ∧
    Machine.distPointSegment (⟨F64.lit false (1 <<< 1023) 1, F64.lit false 0 1⟩ : Vec2 F64)
        ⟨F64.lit true (1 <<< 1023) 1, F64.lit false 0 1⟩
        ⟨F64.lit true (1 <<< 1023) 1, F64.lit false 0 1⟩ = F64.nan ∧
    Machine.norm (PointAlgebra.sub
        (⟨F64.lit false (1 <<< 1023) 1, F64.lit false 0 1⟩ : Vec2 F64)
        ⟨F64.lit true (1 <<< 1023) 1, F64.lit false 0 1⟩) = F64.inf false := by
  decide

/-- C12: in exact arithmetic `distPointSegment` never divides by zero.  On every point
type a call that reaches the division `c1 / c2` has `0 < c1 < c2`, so a divisor
`c2 = (B-A)·(B-A)` above zero, and returns `|P - (A + (c1/c2)(B-A))|`; a call that does
not reach it returns `|P-A|` or `|P-B|`; every call returns a value.  On a segment
`A = B` no call reaches the division and the value is `|P-A|`.  On machine numbers a
call that reaches the division has `0 < c1 < c2` unless `c1` or `c2` is `NaN`; and on a
segment `A = B` of finite coordinates, for every `P` with a finite `P - A`, no call
reaches the division and the value is `|P-A|`. -/
theorem distPointSegment_division_defined {K : Type} [LinearOrderedField K] (sqrt : K → K) :
    (∀ (T : Type) [PointAlgebra K T] (P A B : T),
      (∀ c1 c2 : K, distPointSegmentDivision P A B = some (c1, c2) →
        c1 = PointAlgebra.dot (PointAlgebra.sub B A) (PointAlgebra.sub P A) ∧
        c2 = PointAlgebra.dot (PointAlgebra.sub B A) (PointAlgebra.sub B A) ∧
        0 < c1 ∧ c1 < c2 ∧ 0 < c2 ∧ realDiv c1 c2 = some (c1 / c2) ∧
        distPointSegment sqrt P A B = some (norm sqrt (PointAlgebra.sub P
          (PointAlgebra.add A (PointAlgebra.smul (c1 / c2) (PointAlgebra.sub B A)))))) ∧
      (distPointSegmentDivision P A B = none →
        distPointSegment sqrt P A B = some (norm sqrt (PointAlgebra.sub P A)) ∨
        distPointSegment sqrt P A B = some (norm sqrt (PointAlgebra.sub P B))) ∧
      (distPointSegment sqrt P A B).isSome = true) ∧
    (∀ P A : Vec2 K, distPointSegmentDivision P A A = none ∧
      distPointSegment sqrt P A A = some (norm sqrt (Vec2.sub P A))) ∧
    (∀ P A : Vec3 K, distPointSegmentDivision P A A = none ∧
      distPointSegment sqrt P A A = some (norm sqrt (Vec3.sub P A))) ∧
    (∀ (T : Type) [PointAlgebra F64 T] (P A B : T) (c1 c2 : F64),
      Machine.distPointSegmentDivision P A B = some (c1, c2) →
        c1 = PointAlgebra.dot (PointAlgebra.sub B A) (PointAlgebra.sub P A) ∧
        c2 = PointAlgebra.dot (PointAlgebra.sub B A) (PointAlgebra.sub B A) ∧
        (c1 = F64.nan ∨ c2 = F64.nan ∨
          (F64.le (F64.finite false 0) c1 = true ∧ F64.le c1 (F64.finite false 0) = false ∧
            F64.le c1 c2 = true ∧ F64.le c2 c1 = false)) ∧
        Machine.distPointSegment P A B = Machine.norm (PointAlgebra.sub P
          (PointAlgebra.add A (PointAlgebra.smul (c1 / c2) (PointAlgebra.sub B A))))) ∧
    (∀ P A : Vec2 F64,
      (A.x.isFinite = true ∧ A.y.isFinite = true) →
      ((PointAlgebra.sub P A).x.isFinite = true ∧
        (PointAlgebra.sub P A).y.isFinite = true) →
      Machine.distPointSegmentDivision P A A = none ∧
        Machine.distPointSegment P A A = Machine.norm (PointAlgebra.sub P A)) ∧
    (∀ P A : Vec3 F64,
      (A.x.isFinite = true ∧ A.y.isFinite = true ∧ A.z.isFinite = true) →
      ((PointAlgebra.sub P A).x.isFinite = true ∧
        (PointAlgebra.sub P A).y.isFinite = true ∧
        (PointAlgebra.sub P A).z.isFinite = true) →
      Machine.distPointSegmentDivision P A A = none ∧
        Machine.distPointSegment P A A = Machine.norm (PointAlgebra.sub P A)) := by
  refine ⟨?_, ?_, ?_, ?_, ?_, ?_⟩
  rotate_left 3
  · intro T _ P A B c1 c2 h
    exact Machine.division_reached P A B c1 c2 h
  · intro P A hA hPA
    obtain ⟨u, hu⟩ := Machine.c1_degenerate2 P A hA hPA
    exact Machine.first_branch P A A u hu
  · intro P A hA hPA
    obtain ⟨u, hu⟩ := Machine.c1_degenerate3 P A hA hPA
    exact Machine.first_branch P A A u hu
  · intro T _ P A B
    refine ⟨?_, ?_, ?_⟩
    · intro c1 c2 h
      rw [distPointSegment_eq_some]
      unfold distPointSegmentDivision at h
      by_cases h1 : PointAlgebra.dot (PointAlgebra.sub B A) (PointAlgebra.sub P A) ≤ 0
      · simp [h1] at h
      · by_cases h2 : PointAlgebra.dot (PointAlgebra.sub B A) (PointAlgebra.sub B A)
            ≤ PointAlgebra.dot (PointAlgebra.sub B A) (PointAlgebra.sub P A)
        · simp [h1, h2] at h
        · simp only [if_neg h1, if_neg h2, Option.some.injEq, Prod.mk.injEq] at h
          obtain ⟨e1, e2⟩ := h
          subst e1 e2
          have hpos := lt_trans (not_le.mp h1) (not_le.mp h2)
          refine ⟨rfl, rfl, not_le.mp h1, not_le.mp h2, hpos, ?_, ?_⟩
          · simp [realDiv, ne_of_gt hpos]
          · simp only [if_neg h1, if_neg h2]
    · intro h
      rw [distPointSegment_eq_some]
      unfold distPointSegmentDivision at h
      by_cases h1 : PointAlgebra.dot (PointAlgebra.sub B A) (PointAlgebra.sub P A) ≤ 0
      · left
        simp only [if_pos h1]
      · by_cases h2 : PointAlgebra.dot (PointAlgebra.sub B A) (PointAlgebra.sub B A)
            ≤ PointAlgebra.dot (PointAlgebra.sub B A) (PointAlgebra.sub P A)
        · right
          simp only [if_neg h1, if_pos h2]
        · simp [h1, h2] at h
    · rw [distPointSegment_eq_some]
      rfl
  · intro P A
    have h1 : PointAlgebra.dot (PointAlgebra.sub A A) (PointAlgebra.sub P A) ≤ 0 := by
      simp [PointAlgebra.dot, PointAlgebra.sub, Vec2.dot, Vec2.sub]
    refine ⟨?_, ?_⟩
    · simp only [distPointSegmentDivision, if_pos h1]
    · rw [distPointSegment_eq_some, if_pos h1]
      rfl
  · intro P A
    have h1 : PointAlgebra.dot (PointAlgebra.sub A A) (PointAlgebra.sub P A) ≤ 0 := by
      simp [PointAlgebra.dot, PointAlgebra.sub, Vec3.dot, Vec3.sub]
    refine ⟨?_, ?_⟩
    · simp only [distPointSegmentDivision, if_pos h1]
    · rw [distPointSegment_eq_some, if_pos h1]
      rfl

/-- C12, in exact arithmetic at `P = (1,1)`, `A = (0,0)`, `B = (2,0)`, where the
division `2 / 4` is reached, and at `P = (-1,0)`, where it is not; on machine numbers at
`P = (1,1)`, `A = (0,0)`, `B = (2,0)`, where the division `2 / 4` is reached, and on the
segments `A = B = (0,0)` and `A = B = (0,0,0)` for `P = (3,4)` and `P = (3,4,0)`. -/
theorem distPointSegment_division_defined_witness :
    (distPointSegmentDivision (⟨1, 1⟩ : Vec2 ℚ) ⟨0, 0⟩ ⟨2, 0⟩ = some (2, 4) ∧
      ((0 : ℚ) < 2 ∧ (2 : ℚ) < 4 ∧ realDiv (2 : ℚ) 4 = some (2 / 4))) ∧
    (distPointSegmentDivision (⟨-1, 0⟩ : Vec2 ℚ) ⟨0, 0⟩ ⟨2, 0⟩ = none ∧
      (distPointSegment (fun x : ℚ => x) (⟨-1, 0⟩ : Vec2 ℚ) ⟨0, 0⟩ ⟨2, 0⟩
          = some (norm (fun x : ℚ => x) (PointAlgebra.sub (⟨-1, 0⟩ : Vec2 ℚ) ⟨0, 0⟩)) ∨
        distPointSegment (fun x : ℚ => x) (⟨-1, 0⟩ : Vec2 ℚ) ⟨0, 0⟩ ⟨2, 0⟩
          = some (norm (fun x : ℚ => x) (PointAlgebra.sub (⟨-1, 0⟩ : Vec2 ℚ) ⟨2, 0⟩)))) ∧
    (Machine.distPointSegmentDivision (⟨F64.lit false 1 1, F64.lit false 1 1⟩ : Vec2 F64)
          ⟨F64.lit false 0 1, F64.lit false 0 1⟩ ⟨F64.lit false 2 1, F64.lit false 0 1⟩
        = some (F64.lit false 2 1, F64.lit false 4 1) ∧
      (F64.lit false 2 1 = F64.nan ∨ F64.lit false 4 1 = F64.nan ∨
        (F64.le (F64.finite false 0) (F64.lit false 2 1) = true ∧
          F64.le (F64.lit false 2 1) (F64.finite false 0) = false ∧
          F64.le (F64.lit false 2 1) (F64.lit false 4 1) = true ∧
          F64.le (F64.lit false 4 1) (F64.lit false 2 1) = false))) ∧
    (((F64.lit false 0 1).isFinite = true ∧
        (PointAlgebra.sub (⟨F64.lit false 3 1, F64.lit false 4 1⟩ : Vec2 F64)
          ⟨F64.lit false 0 1, F64.lit false 0 1⟩).x.isFinite = true ∧
        (PointAlgebra.sub (⟨F64.lit false 3 1, F64.lit false 4 1⟩ : Vec2 F64)
          ⟨F64.lit false 0 1, F64.lit false 0 1⟩).y.isFinite = true) ∧
      Machine.distPointSegmentDivision (⟨F64.lit false 3 1, F64.lit false 4 1⟩ : Vec2 F64)
        ⟨F64.lit false 0 1, F64.lit false 0 1⟩ ⟨F64.lit false 0 1, F64.lit false 0 1⟩
        = none) ∧
    (((PointAlgebra.sub
          (⟨F64.lit false 3 1, F64.lit false 4 1, F64.lit false 0 1⟩ : Vec3 F64)
          ⟨F64.lit false 0 1, F64.lit false 0 1, F64.lit false 0 1⟩).x.isFinite = true ∧
        (PointAlgebra.sub
          (⟨F64.lit false 3 1, F64.lit false 4 1, F64.lit false 0 1⟩ : Vec3 F64)
          ⟨F64.lit false 0 1, F64.lit false 0 1, F64.lit false 0 1⟩).y.isFinite = true ∧
        (PointAlgebra.sub
          (⟨F64.lit false 3 1, F64.lit false 4 1, F64.lit false 0 1⟩ : Vec3 F64)
          ⟨F64.lit false 0 1, F64.lit false 0 1, F64.lit false 0 1⟩).z.isFinite = true) ∧
      Machine.distPointSegmentDivision
        (⟨F64.lit false 3 1, F64.lit false 4 1, F64.lit false 0 1⟩ : Vec3 F64)
        ⟨F64.lit false 0 1, F64.lit false 0 1, F64.lit false 0 1⟩
        ⟨F64.lit false 0 1, F64.lit false 0 1, F64.lit false 0 1⟩ = none) :=
  ⟨⟨by norm_num [distPointSegmentDivision, PointAlgebra.dot, PointAlgebra.sub, Vec2.dot,
        Vec2.sub],
      have h := ((distPointSegment_division_defined (fun x : ℚ => x)).1 (Vec2 ℚ)
        ⟨1, 1⟩ ⟨0, 0⟩ ⟨2, 0⟩).1 2 4
        (by norm_num [distPointSegmentDivision, PointAlgebra.dot, PointAlgebra.sub, Vec2.dot,
          Vec2.sub])
      ⟨h.2.2.1, h.2.2.2.1, h.2.2.2.2.2.1⟩⟩,
    ⟨by norm_num [distPointSegmentDivision, PointAlgebra.dot, PointAlgebra.sub, Vec2.dot,
        Vec2.sub],
      ((distPointSegment_division_defined (fun x : ℚ => x)).1 (Vec2 ℚ)
        ⟨-1, 0⟩ ⟨0, 0⟩ ⟨2, 0⟩).2.1
        (by norm_num [distPointSegmentDivision, PointAlgebra.dot, PointAlgebra.sub, Vec2.dot,
          Vec2.sub])⟩,
    ⟨by decide,
      ((distPointSegment_division_defined (fun x : ℚ => x)).2.2.2.1 (Vec2 F64)
        ⟨F64.lit false 1 1, F64.lit false 1 1⟩ ⟨F64.lit false 0 1, F64.lit false 0 1⟩
        ⟨F64.lit false 2 1, F64.lit false 0 1⟩ (F64.lit false 2 1) (F64.lit false 4 1)
        (by decide)).2.2.1⟩,
    ⟨⟨by decide, by decide, by decide⟩,
      ((distPointSegment_division_defined (fun x : ℚ => x)).2.2.2.2.1
        ⟨F64.lit false 3 1, F64.lit false 4 1⟩ ⟨F64.lit false 0 1, F64.lit false 0 1⟩
        ⟨by decide, by decide⟩ ⟨by decide, by decide⟩).1⟩,
    ⟨⟨by decide, by decide, by decide⟩,
      ((distPointSegment_division_defined (fun x : ℚ => x)).2.2.2.2.2
        ⟨F64.lit false 3 1, F64.lit false 4 1, F64.lit false 0 1⟩
        ⟨F64.lit false 0 1, F64.lit false 0 1, F64.lit false 0 1⟩
        ⟨by decide, by decide, by decide⟩ ⟨by decide, by decide, by decide⟩).1⟩⟩

end GeomUtils

/-! ## `Create` -/

namespace OpenSubdiv

namespace OsdCpuGLVertexBuffer

/-- C15, as the claim has it, fails: where no memory is left, `Create(1, 1)` has no
result (`new` throws); `Create(46341, 46341)` has no result either, the `int` product
of the counts being negative; and `Create(65536, 65536)`, whose `int` product is `0`,
returns a buffer with a CPU buffer of no value. -/
theorem Create_never_fails_counterexample :
    Create 4 1 1 (⟨fun _ => none, 0, 0⟩ : GLContext Nat) (fun _ => none) = none ∧
    Create 4 46341 46341 (⟨fun _ => none, 0, 0⟩ : GLContext Nat)
      (fun _ => some (fun _ => 0)) = none ∧
    Create 4 65536 65536 (⟨fun _ => none, 0, 0⟩ : GLContext Nat)
        (fun _ => some (fun _ => 0))
      = some (some ⟨65536, 65536, 1, [], true⟩,
          ⟨Function.update (fun _ => none) 1 (some []), 0, 1⟩) :=
  ⟨rfl, rfl, rfl⟩

/-- C15: whatever `allocate` returns is `true`, and whatever `Create` returns is not
`NULL`: where `new real[n]` fails, `Create` throws and returns nothing.  For counts
`numElements`, `numVertices` that are not negative, with a product below `2^31`, and
where `new real[n]` returns a block, `Create(numElements, numVertices)` returns a
buffer with `GetNumElements() = numElements`, `GetNumVertices() = numVertices`, a CPU
buffer of `numElements × numVertices` values and the dirty flag up. -/
theorem Create_never_fails {α : Type} (sizeofReal : ℕ+) (gl : GLContext α)
    (fresh : Nat → Option (Nat → α)) :
    (∀ (self : OsdCpuGLVertexBuffer α) (r : Bool × OsdCpuGLVertexBuffer α × GLContext α),
      allocate sizeofReal self gl fresh = some r → r.1 = true) ∧
    (∀ (numElements numVertices : Int)
        (r : Option (OsdCpuGLVertexBuffer α) × GLContext α),
      Create sizeofReal numElements numVertices gl fresh = some r → r.1.isSome = true) ∧
    (∀ numElements numVertices : Int, 0 ≤ numElements → 0 ≤ numVertices →
      numElements * numVertices < 2147483648 →
      (fresh (numElements * numVertices).toNat).isSome = true →
      ∃ (buffer : OsdCpuGLVertexBuffer α) (gl1 : GLContext α),
        Create sizeofReal numElements numVertices gl fresh = some (some buffer, gl1) ∧
        buffer.GetNumElements = numElements ∧
        buffer.GetNumVertices = numVertices ∧
        (buffer._cpuBuffer.length : Int) = numElements * numVertices ∧
        buffer._dataDirty = true) := by
  refine ⟨?_, ?_, ?_⟩
  · intro self r h
    exact (allocate_result sizeofReal self gl fresh r h).1
  · intro numElements numVertices r h
    simp only [Create, Option.map_eq_some'] at h
    obtain ⟨a, ha, hr⟩ := h
    have ht := (allocate_result sizeofReal _ gl fresh a ha).1
    rw [← hr, if_pos ht]
    rfl
  · intro numElements numVertices hE hV hlt hf
    have h0 : 0 ≤ numElements * numVertices := mul_nonneg hE hV
    have hconv : toInt (numElements * numVertices) = numElements * numVertices :=
      toInt_of_range _ (by omega) hlt
    obtain ⟨values, hvalues⟩ := Option.isSome_iff_exists.mp hf
    have hn : ¬ toInt ((new numElements numVertices : OsdCpuGLVertexBuffer α)._numElements
        * (new numElements numVertices : OsdCpuGLVertexBuffer α)._numVertices) < 0 := by
      show ¬ toInt (numElements * numVertices) < 0
      rw [hconv]
      exact not_lt.mpr h0
    have hfr : fresh (toInt ((new numElements numVertices : OsdCpuGLVertexBuffer α)._numElements
        * (new numElements numVertices : OsdCpuGLVertexBuffer α)._numVertices)).toNat
        = some values := by
      show fresh (toInt (numElements * numVertices)).toNat = some values
      rw [hconv]
      exact hvalues
    have ha := allocate_eq sizeofReal (new numElements numVertices) gl fresh values hn hfr
    simp only [Create, ha, Option.map_some', reduceIte]
    refine ⟨_, _, rfl, rfl, rfl, ?_, rfl⟩
    show ((List.length (List.map values
        (List.range (toInt (numElements * numVertices)).toNat)) : Nat) : Int) = _
    rw [List.length_map, List.length_range, hconv]
    exact Int.toNat_of_nonneg h0

/-- C15, at `Create(2, 3)` with `sizeof(real) = 4`, in an OpenGL context without buffer
objects, where `new` returns a block of values `9`: a buffer with the buffer object `1`
and a CPU buffer of six values. -/
theorem Create_never_fails_witness :
    ((0 : Int) ≤ 2 ∧ (0 : Int) ≤ 3 ∧ (2 : Int) * 3 < 2147483648 ∧
      (Option.isSome ((fun _ => some (fun _ => 9) : Nat → Option (Nat → Nat))
        ((2 : Int) * 3).toNat) = true)) ∧
    (Create 4 2 3 (⟨fun _ => none, 0, 0⟩ : GLContext Nat) (fun _ => some (fun _ => 9))
        = some (some ⟨2, 3, 1, [9, 9, 9, 9, 9, 9], true⟩,
            ⟨Function.update (fun _ => none) 1 (some [none, none, none, none, none, none]),
              0, 1⟩) ∧
      (Option.isSome (some (⟨2, 3, 1, [9, 9, 9, 9, 9, 9], true⟩ : OsdCpuGLVertexBuffer Nat))
        = true)) ∧
    ∃ (buffer : OsdCpuGLVertexBuffer Nat) (gl1 : GLContext Nat),
      Create 4 2 3 (⟨fun _ => none, 0, 0⟩ : GLContext Nat) (fun _ => some (fun _ => 9))
        = some (some buffer, gl1) ∧
      buffer.GetNumElements = 2 ∧ buffer.GetNumVertices = 3 ∧
      (buffer._cpuBuffer.length : Int) = 2 * 3 ∧ buffer._dataDirty = true :=
  ⟨⟨by decide, by decide, by decide, rfl⟩,
    ⟨rfl,
      (Create_never_fails 4 (⟨fun _ => none, 0, 0⟩ : GLContext Nat)
        (fun _ => some (fun _ => 9))).2.1 2 3
        (some ⟨2, 3, 1, [9, 9, 9, 9, 9, 9], true⟩,
          ⟨Function.update (fun _ => none) 1 (some [none, none, none, none, none, none]),
            0, 1⟩) rfl⟩,
    (Create_never_fails 4 (⟨fun _ => none, 0, 0⟩ : GLContext Nat)
      (fun _ => some (fun _ => 9))).2.2 2 3
      (by decide) (by decide) (by decide) rfl⟩

end OsdCpuGLVertexBuffer

end OpenSubdiv
